import Mathlib

/-!
Verification development for the croncast job scheduler and recording
orchestration engine.

The definitions below are a shallow embedding of the TypeScript sources:
  - `src/scheduler.ts` (job states, active/completed recordings, cron timers),
  - `src/recorder.ts`  (the capture-encode pipeline and the `record` wrapper),
  - `src/config.ts`    (`validateConfig`).

JavaScript heap aliasing matters for several properties (the scheduler mutates
`JobState` and `RecordingInstance` objects in place, and some getters return
the internal array itself rather than a copy), so the scheduler state carries
explicit object heaps keyed by allocation counters, and getters return lists
of references.  Single-threaded JavaScript runs every synchronous segment
atomically; `executeJob` therefore splits into exactly two atomic steps, the
synchronous prefix up to `await record(...)` and the continuation after it.
-/

namespace Croncast

/-- Association list lookup, mirroring `Map.get` (first binding wins;
JS maps hold unique keys so at most one binding exists per key). -/
def lookupAssoc {α β : Type} [DecidableEq α] : List (α × β) → α → Option β
  | [], _ => none
  | (k, v) :: t, k' => if k = k' then some v else lookupAssoc t k'

/-- `Map.set`: replace the binding if the key is present, else append. -/
def setAssoc {α β : Type} [DecidableEq α] : List (α × β) → α → β → List (α × β)
  | [], k, v => [(k, v)]
  | (k0, v0) :: t, k, v =>
    if k0 = k then (k, v) :: t else (k0, v0) :: setAssoc t k v

/-- `Map.delete`: drop the binding with the given key, if any. -/
def eraseKey {α β : Type} [DecidableEq α] : List (α × β) → α → List (α × β)
  | [], _ => []
  | (k0, v0) :: t, k => if k0 = k then t else (k0, v0) :: eraseKey t k

/-- In-place mutation of the object a key maps to (a JS field assignment on
the mapped object): rewrite the value under the key, leave the rest alone. -/
def updateAssoc {α β : Type} [DecidableEq α] : List (α × β) → α → (β → β) → List (α × β)
  | [], _, _ => []
  | (k0, v0) :: t, k, f =>
    if k0 = k then (k0, f v0) :: t else (k0, v0) :: updateAssoc t k f

/-- `status` of a `RecordingInstance`: `'recording' | 'success' | 'error'`. -/
inductive RecStatus where
  | recording
  | success
  | error
deriving DecidableEq

/-- `lastResult` of a `JobState`: `'success' | 'error' | null` (the `null`
is the surrounding `Option`). -/
inductive RunResult where
  | success
  | error
deriving DecidableEq

/-- `RecordingInstance` from `src/scheduler.ts`. -/
structure RecordingInstance where
  id : String
  jobName : String
  startedAt : String
  durationSeconds : ℚ
  outputPath : String
  status : RecStatus
  error : Option String
deriving DecidableEq

/-- `JobState` from `src/scheduler.ts`. -/
structure JobState where
  id : String
  name : String
  schedule : Option String
  nextRun : Option String
  lastRun : Option String
  lastResult : Option RunResult
  lastError : Option String
deriving DecidableEq

/-- `JobConfig` from `src/config.ts`.  Numbers are JavaScript doubles,
modelled as rationals. -/
structure JobConfig where
  id : Option String
  name : String
  url : Option String
  urlPattern : Option String
  schedule : Option String
  enabled : Option Bool
  durationSeconds : ℚ
  captureFps : Option ℚ
  viewportWidth : Option ℚ
  viewportHeight : Option ℚ
deriving DecidableEq

/-- `AppConfig` from `src/config.ts`. -/
structure AppConfig where
  browserURL : Option String
  executablePath : Option String
  headless : Option Bool
  chromePath : Option String
  autoLaunchChrome : Option Bool
  outputDir : String
  port : Option ℚ
  dismissedChecks : Option (List String)
  minimizeToTray : Option Bool
  jobs : List JobConfig
deriving DecidableEq

/-- `job.id!`: the scheduler reads the id with a non-null assertion;
validated configurations always carry one. -/
def idBang (j : JobConfig) : String := j.id.getD ""

/-- The croner library surface the scheduler uses: whether `new Cron(expr)`
parses (`valid`), and what `task.nextRun()` returns at a given instant
(`next`, an ISO string or null). -/
structure CronLib where
  valid : String → Bool
  next : String → ℕ → Option String

/-- A `Cron` task held in the `tasks` map.  The timer callback closure
captures the `config` and `job` passed to `startScheduler`. -/
structure CronTask where
  schedule : String
  cfg : AppConfig
  job : JobConfig
deriving DecidableEq

/-- One entry of the `activeRecordings` map: a reference to the
`RecordingInstance` object and the `AbortController`'s aborted flag. -/
structure ActiveEntry where
  instRef : ℕ
  aborted : Bool
deriving DecidableEq

/-- The data the in-flight `executeJob` continuation (the code after
`await record(...)`) holds in its closure: the instance object, the
captured `state` object and `job.id!`. -/
structure PendingExec where
  instanceId : String
  instRef : ℕ
  stateRef : ℕ
  jobId : String
deriving DecidableEq

/-- The scheduler's module-level mutable state (`tasks`, `jobStates`,
`activeRecordings`, `completedRecordings`), together with explicit object
heaps for the `JobState` and `RecordingInstance` objects those collections
reference, and the set of in-flight `executeJob` continuations. -/
structure SchedState where
  tasks : List (String × CronTask)
  jobStates : List (String × ℕ)
  jsHeap : List (ℕ × JobState)
  instHeap : List (ℕ × RecordingInstance)
  active : List (String × ActiveEntry)
  completed : List ℕ
  pending : List PendingExec
  nextRef : ℕ
deriving DecidableEq

def initState : SchedState :=
  { tasks := [], jobStates := [], jsHeap := [], instHeap := []
    active := [], completed := [], pending := [], nextRef := 0 }

/-- `MAX_COMPLETED` in `src/scheduler.ts`. -/
def MAX_COMPLETED : ℕ := 50

/-- `sanitizeForFilename`: `name.replace(/[<>:"/\\|?*\x00-\x1f]/g, '_')` -
a per-character class replace, so each matching character becomes `_`. -/
def badFilenameChar (c : Char) : Bool :=
  c = '<' || c = '>' || c = ':' || c = '"' || c = '/' || c = '\\' ||
  c = '|' || c = '?' || c = '*' || c.val ≤ 0x1f

def sanitizeForFilename (name : String) : String :=
  ⟨name.data.map (fun c => if badFilenameChar c then '_' else c)⟩

/-- `makeTimestamp` from `src/recorder.ts`:
`new Date().toISOString().replace(/:/g, '')`.  The current instant is an
oracle input (`nowIso`, the ISO string `toISOString` produced); the
single-character regex replace deletes every colon. -/
def makeTimestamp (nowIso : String) : String :=
  ⟨nowIso.data.filter (fun c => c ≠ ':')⟩

/-- `path.join(a, b)` modelled as separator concatenation (the claims do not
depend on path normalization). -/
def pathJoin (a b : String) : String := a ++ "/" ++ b

/-- The synchronous prefix of `executeJob` (everything before
`await record(...)`): look up the job's state - return unchanged when it is
missing - then build the instance id and output path, allocate the
`RecordingInstance`, register it in `activeRecordings` with a fresh
`AbortController`, set `state.lastRun`, and leave the continuation pending.
`nowIso` is the wall clock read by `makeTimestamp` / `new Date()`. -/
def executeJobStart (cfg : AppConfig) (job : JobConfig) (nowIso : String)
    (s : SchedState) : SchedState :=
  match lookupAssoc s.jobStates (idBang job) with
  | none => s
  | some stRef =>
    let timestamp := makeTimestamp nowIso
    let safeName := sanitizeForFilename job.name
    let instanceId := safeName ++ "_" ++ timestamp
    let outputPath := pathJoin cfg.outputDir (instanceId ++ ".mp4")
    let inst : RecordingInstance :=
      { id := instanceId, jobName := job.name, startedAt := nowIso
        durationSeconds := job.durationSeconds, outputPath := outputPath
        status := .recording, error := none }
    let r := s.nextRef
    { s with
      instHeap := setAssoc s.instHeap r inst
      active := setAssoc s.active instanceId ⟨r, false⟩
      pending := s.pending ++ [⟨instanceId, r, stRef, idBang job⟩]
      jsHeap := updateAssoc s.jsHeap stRef (fun st => { st with lastRun := some nowIso })
      nextRef := r + 1 }

/-- `RecordingResult` from `src/recorder.ts`. -/
structure RecordingResult where
  success : Bool
  outputPath : Option String
  error : Option String
deriving DecidableEq

/-- What `await record(...)` produced: a settled `RecordingResult`, or an
exception (its message) caught by `executeJob`'s `catch`. -/
inductive ExecOutcome where
  | result (r : RecordingResult)
  | thrown (msg : String)
deriving DecidableEq

/-- JS truthiness of an optional string (`if (x)`): present and nonempty. -/
def truthyStr : Option String → Bool
  | some s => s ≠ ""
  | none => false

/-- The `lastResult` value `executeJob`'s continuation writes for an
outcome. -/
def execLastResult : ExecOutcome → Option RunResult
  | .result r => some (if r.success then RunResult.success else RunResult.error)
  | .thrown _ => some RunResult.error

/-- The `lastError` value `executeJob`'s continuation writes for an outcome
(`result.error ?? null`, or the caught message). -/
def execLastError : ExecOutcome → Option String
  | .result r => r.error
  | .thrown msg => some msg

/-- The `try`/`catch` body of `executeJob`'s continuation: mutate the
instance's `status`/`error`/`outputPath` and the state's
`lastResult`/`lastError` according to the outcome.  `if (result.error)` and
`if (result.outputPath)` are truthiness tests; `result.error ?? null` is
nullish coalescing and keeps an empty string. -/
def applyOutcomeInst (o : ExecOutcome) (i : RecordingInstance) : RecordingInstance :=
  match o with
  | .result r =>
    let i1 := { i with status := if r.success then RecStatus.success else RecStatus.error }
    let i2 := if truthyStr r.error then { i1 with error := r.error } else i1
    if truthyStr r.outputPath then { i2 with outputPath := r.outputPath.getD i2.outputPath } else i2
  | .thrown msg => { i with status := RecStatus.error, error := some msg }

def applyOutcomeState (o : ExecOutcome) (st : JobState) : JobState :=
  match o with
  | .result r =>
    { st with lastResult := some (if r.success then RunResult.success else RunResult.error)
              lastError := r.error }
  | .thrown msg => { st with lastResult := some RunResult.error, lastError := some msg }

/-- The continuation of `executeJob` after `await record(...)` settles, for
the pending execution at position `idx` (all of it runs in one synchronous
segment): the `try`/`catch` updates above, then the `finally` block -
delete the instance from `activeRecordings`, `unshift` it onto
`completedRecordings`, trim that list to `MAX_COMPLETED`, and recompute
`state.nextRun` from `tasks.get(job.id!)?.nextRun()` (null when there is no
timer).  `t` is the instant at which `nextRun()` is evaluated. -/
def executeJobFinish (lib : CronLib) (idx : ℕ) (t : ℕ) (o : ExecOutcome)
    (s : SchedState) : SchedState :=
  match s.pending.get? idx with
  | none => s
  | some p =>
    let nextRun := (lookupAssoc s.tasks p.jobId).bind (fun tk => lib.next tk.schedule t)
    { s with
      instHeap := updateAssoc s.instHeap p.instRef (applyOutcomeInst o)
      jsHeap := updateAssoc s.jsHeap p.stateRef
        (fun st => { applyOutcomeState o st with nextRun := nextRun })
      active := eraseKey s.active p.instanceId
      completed := (p.instRef :: s.completed).take MAX_COMPLETED
      pending := s.pending.eraseIdx idx }

/-- The fresh `JobState` `startScheduler` creates for a job. -/
def mkInitialJobState (job : JobConfig) : JobState :=
  { id := idBang job, name := job.name, schedule := job.schedule
    nextRun := none, lastRun := none, lastResult := none, lastError := none }

/-- One iteration of `startScheduler`'s `for` loop: allocate and register the
`JobState`; skip timer creation when there is no schedule or the cron
expression fails to parse (`new Cron(schedule)` throws); otherwise register
the task (whose callback closes over `config` and `job`) and set the
state's initial `nextRun` from `task.nextRun()` at instant `t`. -/
def startJob (lib : CronLib) (t : ℕ) (cfg : AppConfig) (s : SchedState)
    (job : JobConfig) : SchedState :=
  let r := s.nextRef
  let s1 := { s with
    jsHeap := setAssoc s.jsHeap r (mkInitialJobState job)
    jobStates := setAssoc s.jobStates (idBang job) r
    nextRef := r + 1 }
  match job.schedule with
  | none => s1
  | some sch =>
    if lib.valid sch then
      { s1 with
        tasks := setAssoc s1.tasks (idBang job) ⟨sch, cfg, job⟩
        jsHeap := updateAssoc s1.jsHeap r
          (fun st => { st with nextRun := lib.next sch t }) }
    else s1

/-- `startScheduler` from `src/scheduler.ts`. -/
def startScheduler (lib : CronLib) (t : ℕ) (cfg : AppConfig)
    (s : SchedState) : SchedState :=
  cfg.jobs.foldl (startJob lib t cfg) s

/-- `stopScheduler`: stop every task, clear `tasks` and `jobStates`
(`activeRecordings`/`completedRecordings` and the objects closures still
hold are untouched). -/
def stopScheduler (s : SchedState) : SchedState :=
  { s with tasks := [], jobStates := [] }

/-- `triggerJob`'s return value. -/
structure TriggerResult where
  triggered : Bool
  reason : Option String
deriving DecidableEq

/-- Does an `activeRecordings` entry's instance carry this job name?
(`entry.instance.jobName === job.name` for one entry.) -/
def activeNamePred (h : List (ℕ × RecordingInstance)) (name : String) :
    (String × ActiveEntry) → Bool :=
  fun p =>
    match lookupAssoc h p.2.instRef with
    | some i => i.jobName == name
    | none => false

/-- The overlap check in `triggerJob`: does any `activeRecordings` entry's
instance carry this job name? -/
def hasActiveName (s : SchedState) (name : String) : Bool :=
  s.active.any (activeNamePred s.instHeap name)

/-- `triggerJob` from `src/scheduler.ts`: find the job by id, refuse when it
is missing or when an active recording already carries its name, otherwise
start `executeJob` (not awaited - its synchronous prefix runs before
`triggerJob` returns) and report `{triggered: true}`. -/
def triggerJob (cfg : AppConfig) (jobId : String) (nowIso : String)
    (s : SchedState) : TriggerResult × SchedState :=
  match cfg.jobs.find? (fun j => j.id == some jobId) with
  | none => (⟨false, some "Job not found"⟩, s)
  | some job =>
    if hasActiveName s job.name then
      (⟨false, some ("Job \"" ++ job.name ++ "\" is already recording")⟩, s)
    else
      (⟨true, none⟩, executeJobStart cfg job nowIso s)

/-- A cron timer firing for the task registered under `jobId`: the callback
runs `executeJob(config, job)` for the captured `config` and `job` with no
check against `activeRecordings` (croner's `protect` option only concerns
this same timer's own firings, and the callback returns before `executeJob`
settles). -/
def timerFire (jobId : String) (nowIso : String) (s : SchedState) : SchedState :=
  match lookupAssoc s.tasks jobId with
  | none => s
  | some tk => executeJobStart tk.cfg tk.job nowIso s

/-- `getActiveRecordings`:
`Array.from(activeRecordings.values()).map(r => r.instance)` - a freshly
allocated array of references to the active instances. -/
def getActiveRecordings (s : SchedState) : List ℕ :=
  s.active.map (fun p => p.2.instRef)

/-- `getJobStates`: `Array.from(jobStates.values())` - a freshly allocated
array of references to the `JobState` objects. -/
def getJobStates (s : SchedState) : List ℕ :=
  s.jobStates.map (fun p => p.2)

/-- `stopRecording`: abort the matching active entry's controller and report
whether one was found. -/
def stopRecording (instanceId : String) (s : SchedState) : Bool × SchedState :=
  match lookupAssoc s.active instanceId with
  | some _ =>
    (true, { s with active := updateAssoc s.active instanceId
                      (fun e => { e with aborted := true }) })
  | none => (false, s)

/-- `stopAllRecordings`: abort every active entry's controller and count
them. -/
def stopAllRecordings (s : SchedState) : ℕ × SchedState :=
  (s.active.length,
   { s with active := s.active.map (fun p => (p.1, { p.2 with aborted := true })) })

/-! ### Scheduler histories

A reachable scheduler state is one produced by a sequence of the atomic
synchronous segments the program can run: the public operations plus timer
fires and the settling of an in-flight recording.  Timestamps, recording
outcomes and the configurations handed to `startScheduler`/`triggerJob` are
oracle inputs of the events. -/

inductive Event where
  | startEv (t : ℕ) (cfg : AppConfig)
  | stopEv
  | triggerEv (cfg : AppConfig) (jobId : String) (nowIso : String)
  | timerFireEv (jobId : String) (nowIso : String)
  | finishEv (idx : ℕ) (t : ℕ) (o : ExecOutcome)
  | stopOneEv (instanceId : String)
  | stopAllEv

def Event.isTimerFire : Event → Bool
  | .timerFireEv _ _ => true
  | _ => false

def stepEvent (lib : CronLib) (e : Event) (s : SchedState) : SchedState :=
  match e with
  | .startEv t cfg => startScheduler lib t cfg s
  | .stopEv => stopScheduler s
  | .triggerEv cfg jobId nowIso => (triggerJob cfg jobId nowIso s).2
  | .timerFireEv jobId nowIso => timerFire jobId nowIso s
  | .finishEv idx t o => executeJobFinish lib idx t o s
  | .stopOneEv instanceId => (stopRecording instanceId s).2
  | .stopAllEv => (stopAllRecordings s).2

def runEvents (lib : CronLib) (evs : List Event) : SchedState :=
  evs.foldl (fun s e => stepEvent lib e s) initState

/-! ### Observation of getter return values

`getJobStates` and `getActiveRecordings` build a new array holding
references to the internal objects; `getCompletedRecordings` returns the
internal `completedRecordings` array itself.  A value a caller holds is
therefore either a frozen list of references or the live array; what the
caller sees when reading it later depends on the scheduler state at that
later instant. -/

inductive InstancesRet where
  | freshArr (refs : List ℕ)
  | liveCompleted
deriving DecidableEq

/-- Return value of `getActiveRecordings`. -/
def listActiveRet (s : SchedState) : InstancesRet :=
  .freshArr (getActiveRecordings s)

/-- Return value of `getCompletedRecordings`: `return completedRecordings;`. -/
def listCompletedRet (_s : SchedState) : InstancesRet :=
  .liveCompleted

/-- The instance references a held return value designates at state `s`. -/
def instRetRefs (s : SchedState) : InstancesRet → List ℕ
  | .freshArr refs => refs
  | .liveCompleted => s.completed

/-- Dereference a held return value at state `s`: the `RecordingInstance`
values a caller reading the array at that instant obtains. -/
def observeInstances (s : SchedState) (ret : InstancesRet) : List RecordingInstance :=
  (instRetRefs s ret).filterMap (lookupAssoc s.instHeap)

/-- Dereference a held `getJobStates` return value at state `s`. -/
def observeJobStates (s : SchedState) (refs : List ℕ) : List JobState :=
  refs.filterMap (lookupAssoc s.jsHeap)

/-- Number of `activeRecordings` entries whose instance carries the given
job name (the multiplicity `listActive()` would show for that name). -/
def countActiveName (s : SchedState) (name : String) : ℕ :=
  s.active.countP (activeNamePred s.instHeap name)

end Croncast

namespace Croncast.Recorder

/-! ### The capture-encode pipeline (`recordPage` in `src/recorder.ts`)

The capture loop interacts with the page (screenshots), the ffmpeg
subprocess (stdin writes, drain events, process exit) and the wall clock.
Each loop iteration's external observations are an oracle (`IterEnv`);
time is rational milliseconds and advances by the oracle's latencies and by
the loop's own anchored sleep.  The loop is written with fuel; running out
of fuel exits the loop, and the post-loop processing - the part the claims
are about - is identical for every exit path, as in the source. -/

/-- Outcome of `page.screenshot(...)`: a JPEG of `bytes` bytes, or a thrown
error. -/
inductive ShotRes where
  | ok (bytes : ℕ)
  | err (msg : String)
deriving DecidableEq

/-- External observations of one loop iteration. -/
structure IterEnv where
  ffmpegDone : Bool
  aborted : Bool
  shot : ShotRes
  shotLatency : ℚ
  destroyedAfterShot : Bool
  writeOk : Bool
  destroyedAtDrainCheck : Bool
  drained : Bool
  drainLatency : ℚ
deriving DecidableEq

/-- What the loop accumulated: `totalFrames`, `totalBytes`, the instants at
which each counted frame's screenshot was taken (ghost data for the pacing
property), and the clock at exit. -/
structure LoopResult where
  totalFrames : ℕ
  totalBytes : ℕ
  frameTimes : List ℚ
  endTime : ℚ
deriving DecidableEq

/-- The `while` loop of `recordPage`, one constructor case per iteration.
`start` is `startTime`, `durationSeconds` the requested duration,
`interval` is `captureInterval = 1000 / captureFps`; `now` the clock,
`n`/`bytes` the accumulators, `times` the reversed list of capture
instants.  Every `break`/condition mirrors the source:
loop head `!ffmpegDone && !signal?.aborted`, the deadline check
`elapsed >= durationSeconds`, the screenshot `catch`, the
`proc.stdin.destroyed` guard, the backpressure drain with its 10s timeout,
and the wall-clock-anchored sleep
`nextFrameAt = startTime + totalFrames * captureInterval`. -/
def captureLoopAux (env : ℕ → IterEnv) (start durationSeconds interval : ℚ) :
    ℕ → ℕ → ℚ → ℕ → ℕ → List ℚ → LoopResult
  | 0, _, now, n, bytes, times => ⟨n, bytes, times.reverse, now⟩
  | fuel + 1, i, now, n, bytes, times =>
    let e := env i
    if e.ffmpegDone || e.aborted then ⟨n, bytes, times.reverse, now⟩
    else if durationSeconds ≤ (now - start) / 1000 then ⟨n, bytes, times.reverse, now⟩
    else
      match e.shot with
      | .err _ => ⟨n, bytes, times.reverse, now + e.shotLatency⟩
      | .ok b =>
        let nowShot := now + e.shotLatency
        if e.destroyedAfterShot then ⟨n, bytes, times.reverse, nowShot⟩
        else
          let n1 := n + 1
          let bytes1 := bytes + b
          let times1 := now :: times
          if !e.writeOk && !e.destroyedAtDrainCheck then
            if e.drained then
              let now2 := nowShot + e.drainLatency
              let nextFrameAt := start + n1 * interval
              let sleepMs := max 0 (nextFrameAt - now2)
              captureLoopAux env start durationSeconds interval fuel (i + 1)
                (now2 + sleepMs) n1 bytes1 times1
            else ⟨n1, bytes1, times1.reverse, nowShot + 10000⟩
          else
            let nextFrameAt := start + n1 * interval
            let sleepMs := max 0 (nextFrameAt - nowShot)
            captureLoopAux env start durationSeconds interval fuel (i + 1)
              (nowShot + sleepMs) n1 bytes1 times1

/-- Run the capture loop from its start state. -/
def captureLoop (env : ℕ → IterEnv) (start durationSeconds captureFps : ℚ)
    (fuel : ℕ) : LoopResult :=
  captureLoopAux env start durationSeconds (1000 / captureFps) fuel 0 start 0 0 []

/-- How the ffmpeg subprocess's `procDone` promise settled: an `error`
event (spawn failure) or a `close` event with an exit code and the trailing
stderr buffer. -/
inductive ProcOutcome where
  | spawnErr (msg : String)
  | closed (code : Int) (stderrTail : String)
deriving DecidableEq

/-- `s.slice(-n)` on a string. -/
def sliceLast (s : String) (k : ℕ) : String :=
  ⟨s.data.drop (s.data.length - k)⟩

def procDoneResult (p : ProcOutcome) : Except String Unit :=
  match p with
  | .spawnErr m => .error ("ffmpeg failed to start: " ++ m)
  | .closed code tail =>
    if code = 0 then .ok ()
    else .error ("ffmpeg exited with code " ++ toString code ++ ": " ++ sliceLast tail 500)

/-- The hard-failure message for a loop that captured nothing. -/
def zeroFramesMsg : String :=
  "Recording captured 0 frames — screenshot failed immediately"

/-- The post-loop tail of `recordPage`: end the stream, then - regardless of
why the loop exited - throw the zero-frames `RecordingError` when
`totalFrames === 0` (the pending `procDone` rejection is swallowed first),
else propagate `await procDone`. -/
def recordPageResult (lr : LoopResult) (p : ProcOutcome) : Except String Unit :=
  if lr.totalFrames = 0 then .error zeroFramesMsg
  else procDoneResult p

/-! ### The `record` wrapper (`src/recorder.ts`) -/

/-- What `findPage` resolved to: whether the page was newly opened by this
attempt (the page handle itself is only passed onward). -/
structure FoundPage where
  opened : Bool
deriving DecidableEq

/-- Outcomes of the awaited collaborator calls inside `record`'s `try`
block, plus the `finally` page close (whose own failure the source
swallows). -/
structure RecordEnv where
  ensureBrowser : Except String Unit
  ensureConnected : Except String Unit
  findPage : Except String FoundPage
  setViewport : Except String Unit
  pipeline : Except String Unit
  closePage : Except String Unit

/-- JS truthiness of an optional number (`if (x)`): present and nonzero. -/
def truthyNum : Option ℚ → Bool
  | some q => q ≠ 0
  | none => false

/-- `job.captureFps || 2`: the fps handed to `recordPage`. -/
def effectiveFps (job : JobConfig) : ℚ :=
  match job.captureFps with
  | some f => if f = 0 then 2 else f
  | none => f0
where f0 : ℚ := 2

/-- `record` from `src/recorder.ts`.  The result type is
`Except String RecordingResult` so that an escaping exception would be an
`.error`; the source's `catch` converts every error raised in the `try`
block into a `{success: false, outputPath, error}` value.  The `finally`
block closes a newly opened page inside its own swallowed `try` and cannot
change the returned value. -/
def recordBody (cfg : AppConfig) (job : JobConfig) (outputPath : String)
    (env : RecordEnv) : Except String RecordingResult := do
  let isLaunchMode := truthyStr cfg.executablePath
  let _ ← if isLaunchMode then env.ensureBrowser else env.ensureConnected
  let _found ← env.findPage
  let _ ← if truthyNum job.viewportWidth && truthyNum job.viewportHeight
          then env.setViewport else Except.ok ()
  let _ ← env.pipeline
  pure { success := true, outputPath := some outputPath, error := none }

def record (cfg : AppConfig) (job : JobConfig) (outputPath : String)
    (env : RecordEnv) : Except String RecordingResult :=
  match recordBody cfg job outputPath env with
  | .ok r => .ok r
  | .error msg => .ok { success := false, outputPath := some outputPath, error := some msg }

/-- The iteration oracle of an ideal run: the page and encoder respond
instantly and nothing fails - zero capture/encode latency, no backpressure,
no cancellation. -/
def idealIterEnv (b : ℕ) : IterEnv :=
  { ffmpegDone := false, aborted := false, shot := .ok b, shotLatency := 0
    destroyedAfterShot := false, writeOk := true, destroyedAtDrainCheck := false
    drained := true, drainLatency := 0 }

/-- A `RecordEnv` in which browser connection, page lookup and viewport all
succeed, so the capture-encode pipeline is actually invoked with the given
outcome. -/
def okEnv (pipelineRes : Except String Unit) : RecordEnv :=
  { ensureBrowser := .ok (), ensureConnected := .ok ()
    findPage := .ok ⟨false⟩, setViewport := .ok ()
    pipeline := pipelineRes, closePage := .ok () }

end Croncast.Recorder

namespace Croncast.Config

open Croncast

/-! ### `validateConfig` (`src/config.ts`)

The raw input is an arbitrary JSON value (`unknown` parsed from JSON or an
API body).  `undefined` is the absence of a key.  The generated ids
(`Math.random().toString(36).slice(2, 10)`) are an oracle, one per job
position. -/

inductive JVal where
  | jnull
  | jbool (b : Bool)
  | jnum (q : ℚ)
  | jstr (s : String)
  | jarr (xs : List JVal)
  | jobj (fs : List (String × JVal))

/-- Property access `obj.key` on the raw value (objects carry unique keys). -/
def getField : JVal → String → Option JVal
  | .jobj fs, k => lookupAssoc fs k
  | _, _ => none

def isJStr : Option JVal → Bool
  | some (.jstr _) => true
  | _ => false

def isJBool : Option JVal → Bool
  | some (.jbool _) => true
  | _ => false

def isJNum : Option JVal → Bool
  | some (.jnum _) => true
  | _ => false

/-- `x !== false` on a validated boolean-or-absent field, negated:
is the field the literal `false`? -/
def isJFalse : Option JVal → Bool
  | some (.jbool false) => true
  | _ => false

/-- `x as string | undefined` after validation: the string when present. -/
def asStrOpt : Option JVal → Option String
  | some (.jstr s) => some s
  | _ => none

/-- `x as string` after validation (the cast is unchecked; validation
guarantees the string case). -/
def asStrD : Option JVal → String
  | some (.jstr s) => s
  | _ => ""

def asNumOpt : Option JVal → Option ℚ
  | some (.jnum q) => some q
  | _ => none

def asNumD : Option JVal → ℚ
  | some (.jnum q) => q
  | _ => 0

/-- `Number.isInteger` on a rational. -/
def isIntegerQ (q : ℚ) : Bool := q.den = 1

/-- The per-job checks of `validateConfig`'s `for` loop body. -/
def validateJob (j : JVal) : Except String Unit := do
  let isObj : Bool := match j with | .jobj _ => true | _ => false
  if !isObj then throw "Each job must be an object"
  let nameOk : Bool := match getField j "name" with
    | some (.jstr s) => s.length != 0
    | _ => false
  if !nameOk then throw "Each job must have a non-empty name"
  let schedOk : Bool := match getField j "schedule" with
    | none => true
    | some (.jstr s) => s.length != 0
    | some _ => false
  if !schedOk then throw "schedule must be a non-empty string if provided"
  let durOk : Bool := match getField j "durationSeconds" with
    | some (.jnum q) => 0 < q
    | _ => false
  if !durOk then throw "durationSeconds must be a positive number"
  if (getField j "url").isNone && (getField j "urlPattern").isNone then
    throw "must have at least one of url or urlPattern"
  if (getField j "url").isSome && !isJStr (getField j "url") then
    throw "url must be a string"
  if (getField j "urlPattern").isSome && !isJStr (getField j "urlPattern") then
    throw "urlPattern must be a string"
  if (getField j "enabled").isSome && !isJBool (getField j "enabled") then
    throw "enabled must be a boolean"
  let fpsOk : Bool := match getField j "captureFps" with
    | none => true
    | some (.jnum q) => 1 ≤ q && q ≤ 30
    | some _ => false
  if !fpsOk then throw "captureFps must be a number between 1 and 30"
  let vwOk : Bool := match getField j "viewportWidth" with
    | none => true
    | some (.jnum q) => isIntegerQ q && 0 < q
    | some _ => false
  if !vwOk then throw "viewportWidth must be a positive integer"
  let vhOk : Bool := match getField j "viewportHeight" with
    | none => true
    | some (.jnum q) => isIntegerQ q && 0 < q
    | some _ => false
  if !vhOk then throw "viewportHeight must be a positive integer"
  return ()

def validateJobs : List JVal → Except String Unit
  | [] => .ok ()
  | j :: t => do
    let _ ← validateJob j
    validateJobs t

/-- The job-construction `map` of `validateConfig` (the `as` casts are
unchecked; validation has pinned the shapes). -/
def buildJob (freshId : String) (j : JVal) : JobConfig :=
  { id := some (match getField j "id" with
      | some (.jstr s) => if s.length > 0 then s else freshId
      | _ => freshId)
    name := asStrD (getField j "name")
    url := asStrOpt (getField j "url")
    urlPattern := asStrOpt (getField j "urlPattern")
    schedule := asStrOpt (getField j "schedule")
    enabled := some (!isJFalse (getField j "enabled"))
    durationSeconds := asNumD (getField j "durationSeconds")
    captureFps := asNumOpt (getField j "captureFps")
    viewportWidth := asNumOpt (getField j "viewportWidth")
    viewportHeight := asNumOpt (getField j "viewportHeight") }

/-- `if (obj.chromePath) config.chromePath = ...` (truthiness test). -/
def attachChromePath (raw : JVal) (c : AppConfig) : AppConfig :=
  match getField raw "chromePath" with
  | some (.jstr s) => if s ≠ "" then { c with chromePath := some s } else c
  | _ => c

/-- `if (typeof obj.autoLaunchChrome === 'boolean') ...` -/
def attachAutoLaunchChrome (raw : JVal) (c : AppConfig) : AppConfig :=
  match getField raw "autoLaunchChrome" with
  | some (.jbool b) => { c with autoLaunchChrome := some b }
  | _ => c

/-- `if (Array.isArray(obj.dismissedChecks)) ...` (keep only strings). -/
def attachDismissedChecks (raw : JVal) (c : AppConfig) : AppConfig :=
  match getField raw "dismissedChecks" with
  | some (.jarr xs) =>
    { c with dismissedChecks := some (xs.filterMap (fun v =>
        match v with | JVal.jstr s => some s | _ => none)) }
  | _ => c

/-- `if (typeof obj.minimizeToTray === 'boolean') ...` -/
def attachMinimizeToTray (raw : JVal) (c : AppConfig) : AppConfig :=
  match getField raw "minimizeToTray" with
  | some (.jbool b) => { c with minimizeToTray := some b }
  | _ => c

/-- The four `if (...) config.x = ...` sections of `validateConfig` between
the literal and the mode selection. -/
def attachOptionals (raw : JVal) (base : AppConfig) : AppConfig :=
  attachMinimizeToTray raw
    (attachDismissedChecks raw (attachAutoLaunchChrome raw (attachChromePath raw base)))

/-- The construction tail of `validateConfig` (everything after the checks
passed): build the `AppConfig` literal, attach the optional sections, and
finally set exactly one of `executablePath` (with `headless`) or
`browserURL` (defaulted). -/
def buildConfig (freshId : ℕ → String) (raw : JVal) (jobVals : List JVal) : AppConfig :=
  let base : AppConfig :=
    { browserURL := none, executablePath := none, headless := none
      chromePath := none, autoLaunchChrome := none
      outputDir := match getField raw "outputDir" with
        | some (.jstr s) => s
        | _ => "./recordings"
      port := none, dismissedChecks := none, minimizeToTray := none
      jobs := (jobVals.enum.map (fun ji => buildJob (freshId ji.1) ji.2)) }
  let c4 := attachOptionals raw base
  match getField raw "executablePath" with
  | some v =>
    let c5 := { c4 with executablePath := some (asStrD (some v)) }
    (match getField raw "headless" with
     | some (.jbool b) => { c5 with headless := some b }
     | some _ => { c5 with headless := some false }
     | none => c5)
  | none =>
    { c4 with browserURL := some (match getField raw "browserURL" with
        | some (.jstr s) => s
        | _ => "http://localhost:9222") }

/-- The `jobs` array of the raw value (empty when absent or not an
array - the `jobsOk` guard rejects those shapes anyway). -/
def rawJobs (raw : JVal) : List JVal :=
  match getField raw "jobs" with
  | some (.jarr xs) => xs
  | _ => []

/-- `validateConfig` from `src/config.ts`: the guard chain in source order
(each `throw` is an early exit), then the construction. -/
def validateConfig (freshId : ℕ → String) (raw : JVal) : Except String AppConfig :=
  let isObj : Bool := match raw with | .jobj _ => true | _ => false
  if !isObj then .error "Config must be a JSON object"
  else if (getField raw "browserURL").isSome && (getField raw "executablePath").isSome then
    .error "Config must not specify both browserURL and executablePath"
  else if (getField raw "browserURL").isSome && !isJStr (getField raw "browserURL") then
    .error "browserURL must be a string"
  else if (getField raw "executablePath").isSome && !isJStr (getField raw "executablePath") then
    .error "executablePath must be a string"
  else if (getField raw "chromePath").isSome && !isJStr (getField raw "chromePath") then
    .error "chromePath must be a string"
  else if (getField raw "headless").isSome && !isJBool (getField raw "headless") then
    .error "headless must be a boolean"
  else if (getField raw "outputDir").isSome && !isJStr (getField raw "outputDir") then
    .error "outputDir must be a string"
  else
    let jobsOk : Bool := match getField raw "jobs" with
      | some (.jarr xs) => xs.length != 0
      | _ => false
    if !jobsOk then .error "jobs must be a non-empty array"
    else match validateJobs (rawJobs raw) with
      | .error e => .error e
      | .ok _ => .ok (buildConfig freshId raw (rawJobs raw))

end Croncast.Config

namespace Croncast.Fixtures

open Croncast Croncast.Recorder Croncast.Config

/-! ### Concrete fixtures for counterexamples and witnesses -/

/-- The `"demo"` job of the spec's scenario, with a valid cron schedule. -/
def demoJob : JobConfig :=
  { id := some "demo-id", name := "demo", url := some "https://example.com"
    urlPattern := none, schedule := some "* * * * *", enabled := some true
    durationSeconds := 5, captureFps := some 2
    viewportWidth := none, viewportHeight := none }

def demoCfg : AppConfig :=
  { browserURL := some "http://localhost:9222", executablePath := none
    headless := none, chromePath := none, autoLaunchChrome := none
    outputDir := "./recordings", port := none, dismissedChecks := none
    minimizeToTray := none, jobs := [demoJob] }

/-- A concrete croner behaviour: `"* * * * *"` (and everything else here)
parses, and `nextRun()` is immaterial to the counterexamples. -/
def demoLib : CronLib := { valid := fun _ => true, next := fun _ _ => none }

def iso1 : String := "2026-01-01T00:00:00.000Z"

def iso2 : String := "2026-01-01T00:01:00.000Z"

/-- Start the scheduler, manually trigger `"demo"`, then let its cron timer
fire while the manual recording is still in flight. -/
def evsOverlap : List Event :=
  [.startEv 0 demoCfg, .triggerEv demoCfg "demo-id" iso1,
   .timerFireEv "demo-id" iso2]

/-- Start the scheduler and manually trigger `"demo"` (one recording in
flight). -/
def evsOneActive : List Event :=
  [.startEv 0 demoCfg, .triggerEv demoCfg "demo-id" iso1]

/-- A successful `RecordingResult`. -/
def okResult : RecordingResult :=
  { success := true, outputPath := some "./recordings/demo.mp4", error := none }

/-- An iteration oracle whose very first screenshot throws. -/
def failShotEnv : ℕ → IterEnv :=
  fun _ => { idealIterEnv 1000 with shot := .err "Protocol error" }

/-- A croner behaviour that accepts `"* * * * *"` and rejects everything
else (in particular the malformed `"not-a-cron"`). -/
def invalidLib : CronLib :=
  { valid := fun s => s == "* * * * *"
    next := fun _ _ => some "2026-01-02T00:00:00.000Z" }

/-- A job whose `schedule` is not a parseable cron expression. -/
def badJob : JobConfig :=
  { id := some "bad-id", name := "bad", url := some "https://example.org"
    urlPattern := none, schedule := some "not-a-cron", enabled := some true
    durationSeconds := 3, captureFps := none
    viewportWidth := none, viewportHeight := none }

/-- The demo configuration extended with the malformed-schedule job. -/
def badCfg : AppConfig :=
  { demoCfg with jobs := [demoJob, badJob] }

/-- A raw JSON connect-mode configuration (no `executablePath`, no
`browserURL`, one valid job). -/
def rawConnect : Config.JVal :=
  .jobj [("outputDir", .jstr "./recordings"),
         ("jobs", .jarr [.jobj [("id", .jstr "demo-id"),
                                ("name", .jstr "demo"),
                                ("url", .jstr "https://example.com"),
                                ("schedule", .jstr "* * * * *"),
                                ("durationSeconds", .jnum 5)]])]

/-- A raw JSON configuration supplying both `browserURL` and
`executablePath`. -/
def rawBoth : Config.JVal :=
  .jobj [("browserURL", .jstr "http://localhost:9222"),
         ("executablePath", .jstr "/usr/bin/google-chrome"),
         ("jobs", .jarr [.jobj [("name", .jstr "demo"),
                                ("url", .jstr "https://example.com"),
                                ("durationSeconds", .jnum 5)]])]

/-- An id-generation oracle. -/
def freshId0 : ℕ → String := fun i => "gen" ++ toString i

end Croncast.Fixtures

namespace Croncast

/-! ### The claims under test, formalised as stated -/

/-- Claim C1 as stated: in every reachable scheduler state, at most one
active `RecordingInstance` carries any given job name. -/
def activeNameInvariantClaim : Prop :=
  ∀ lib evs name, countActiveName (runEvents lib evs) name ≤ 1

/-- Claim C2 as stated: the three getters return snapshots, so a previously
returned value is unchanged by any further step of the scheduler. -/
def snapshotClaim : Prop :=
  ∀ lib evs e,
    observeInstances (stepEvent lib e (runEvents lib evs))
        (listActiveRet (runEvents lib evs))
      = observeInstances (runEvents lib evs) (listActiveRet (runEvents lib evs))
    ∧ observeInstances (stepEvent lib e (runEvents lib evs))
        (listCompletedRet (runEvents lib evs))
      = observeInstances (runEvents lib evs) (listCompletedRet (runEvents lib evs))
    ∧ observeJobStates (stepEvent lib e (runEvents lib evs))
        (getJobStates (runEvents lib evs))
      = observeJobStates (runEvents lib evs) (getJobStates (runEvents lib evs))

/-- Histories that contain no cron-timer fire. -/
def noTimerFire (evs : List Event) : Bool :=
  evs.all (fun e => !e.isTimerFire)

/-- Every reference an active entry holds was allocated. -/
def activeRefsFresh (s : SchedState) : Prop :=
  ∀ p ∈ s.active, p.2.instRef < s.nextRef

/-- The state invariant the manual-trigger path maintains. -/
def schedInv (s : SchedState) : Prop :=
  activeRefsFresh s ∧ ∀ name, countActiveName s name ≤ 1

end Croncast

attribute [local semireducible] Rat.sub Rat.mul Rat.inv Rat.add Nat.gcd

namespace Croncast

/-! ### Association-list lemmas -/

theorem lookup_setAssoc {α β : Type} [DecidableEq α] (l : List (α × β)) (k k' : α) (v : β) :
    lookupAssoc (setAssoc l k v) k' = if k = k' then some v else lookupAssoc l k' := by
  induction l with
  | nil => simp [setAssoc, lookupAssoc]
  | cons hd t ih =>
    obtain ⟨k0, v0⟩ := hd
    by_cases h0 : k0 = k
    · subst h0
      by_cases h1 : k0 = k'
      · subst h1
        simp [setAssoc, lookupAssoc]
      · simp [setAssoc, lookupAssoc, h1]
    · by_cases h1 : k0 = k'
      · subst h1
        have hk : ¬ k = k0 := fun h => h0 h.symm
        simp [setAssoc, lookupAssoc, h0, hk]
      · simp [setAssoc, lookupAssoc, h0, h1, ih]

theorem lookup_updateAssoc {α β : Type} [DecidableEq α] (l : List (α × β)) (k k' : α)
    (f : β → β) :
    lookupAssoc (updateAssoc l k f) k' =
      if k = k' then (lookupAssoc l k').map f else lookupAssoc l k' := by
  induction l with
  | nil => simp [updateAssoc, lookupAssoc]
  | cons hd t ih =>
    obtain ⟨k0, v0⟩ := hd
    by_cases h0 : k0 = k
    · subst h0
      by_cases h1 : k0 = k'
      · subst h1
        simp [updateAssoc, lookupAssoc]
      · have hk : ¬ k0 = k' := h1
        simp [updateAssoc, lookupAssoc, hk]
    · by_cases h1 : k0 = k'
      · subst h1
        have hk : ¬ k = k0 := fun h => h0 h.symm
        simp [updateAssoc, lookupAssoc, h0, hk]
      · simp [updateAssoc, lookupAssoc, h0, h1, ih]

theorem lookup_none_of_not_mem_keys {α β : Type} [DecidableEq α] (l : List (α × β)) (k : α)
    (h : k ∉ l.map Prod.fst) : lookupAssoc l k = none := by
  induction l with
  | nil => rfl
  | cons hd t ih =>
    obtain ⟨k0, v0⟩ := hd
    simp only [List.map_cons, List.mem_cons] at h
    push_neg at h
    have hk : ¬ k0 = k := fun h0 => h.1 h0.symm
    simp [lookupAssoc, hk, ih h.2]

theorem lookup_eraseKey_self {α β : Type} [DecidableEq α] (l : List (α × β)) (k : α)
    (hnd : (l.map Prod.fst).Nodup) : lookupAssoc (eraseKey l k) k = none := by
  induction l with
  | nil => rfl
  | cons hd t ih =>
    obtain ⟨k0, v0⟩ := hd
    simp only [List.map_cons, List.nodup_cons] at hnd
    by_cases h0 : k0 = k
    · subst h0
      simp only [eraseKey, if_pos rfl]
      exact lookup_none_of_not_mem_keys t k0 hnd.1
    · simp [eraseKey, if_neg h0, lookupAssoc, if_neg h0, ih hnd.2]

theorem mem_eraseKey {α β : Type} [DecidableEq α] {l : List (α × β)} {k : α}
    {x : α × β} (h : x ∈ eraseKey l k) : x ∈ l := by
  induction l with
  | nil => simp [eraseKey] at h
  | cons hd t ih =>
    obtain ⟨k0, v0⟩ := hd
    by_cases h0 : k0 = k
    · subst h0
      simp only [eraseKey, if_pos rfl] at h
      exact List.mem_cons_of_mem _ h
    · simp only [eraseKey, if_neg h0, List.mem_cons] at h
      rcases h with h | h
      · exact h ▸ List.mem_cons_self _ _
      · exact List.mem_cons_of_mem _ (ih h)

theorem countP_setAssoc_le {α β : Type} [DecidableEq α] (l : List (α × β)) (k : α) (v : β)
    (p : (α × β) → Bool) (hp : p (k, v) = false) :
    (setAssoc l k v).countP p ≤ l.countP p := by
  induction l with
  | nil => simp [setAssoc, List.countP_cons, hp]
  | cons hd t ih =>
    obtain ⟨k0, v0⟩ := hd
    by_cases h0 : k0 = k
    · subst h0
      simp [setAssoc, List.countP_cons, hp]
    · simp only [setAssoc, if_neg h0, List.countP_cons]
      omega

theorem countP_setAssoc_all_false {α β : Type} [DecidableEq α] (l : List (α × β)) (k : α)
    (v : β) (p : (α × β) → Bool) (h : ∀ x ∈ l, p x = false) :
    (setAssoc l k v).countP p = if p (k, v) then 1 else 0 := by
  induction l with
  | nil => simp [setAssoc, List.countP_cons]
  | cons hd t ih =>
    obtain ⟨k0, v0⟩ := hd
    have hhd : p (k0, v0) = false := h _ (List.mem_cons_self _ _)
    have ht : ∀ x ∈ t, p x = false := fun x hx => h x (List.mem_cons_of_mem _ hx)
    have htc : t.countP p = 0 := by
      rw [List.countP_eq_zero]
      intro x hx
      simp [ht x hx]
    by_cases h0 : k0 = k
    · subst h0
      simp [setAssoc, List.countP_cons, hhd, htc]
    · simp only [setAssoc, if_neg h0, List.countP_cons, hhd, ih ht]
      simp

theorem countP_eraseKey_le {α β : Type} [DecidableEq α] (l : List (α × β)) (k : α)
    (p : (α × β) → Bool) : (eraseKey l k).countP p ≤ l.countP p := by
  induction l with
  | nil => simp [eraseKey]
  | cons hd t ih =>
    obtain ⟨k0, v0⟩ := hd
    by_cases h0 : k0 = k
    · subst h0
      simp only [eraseKey, if_pos, List.countP_cons]
      omega
    · simp only [eraseKey, if_neg h0, List.countP_cons]
      omega

theorem map_updateAssoc {α β γ : Type} [DecidableEq α] (l : List (α × β)) (k : α)
    (f : β → β) (g : (α × β) → γ) (hg : ∀ k0 v, g (k0, f v) = g (k0, v)) :
    (updateAssoc l k f).map g = l.map g := by
  induction l with
  | nil => rfl
  | cons hd t ih =>
    obtain ⟨k0, v0⟩ := hd
    by_cases h0 : k0 = k
    · subst h0
      simp [updateAssoc, hg]
    · simp [updateAssoc, if_neg h0, ih]

/-! ### Claim C4: the Orchestrator's `record` never throws past its
boundary -/

/-- C4.  For every configuration, job, output path and environment of
collaborator outcomes (browser connection, page lookup, viewport, pipeline,
page close - each allowed to fail arbitrarily), `record` returns an
`.ok` `RecordingResult`: every raised error is converted into a
`{success: false, error}` value and no exception escapes. -/
theorem spec_C4 (cfg : AppConfig) (job : JobConfig) (outputPath : String)
    (env : Recorder.RecordEnv) :
    ∃ r : RecordingResult,
      Recorder.record cfg job outputPath env = .ok r := by
  cases h : Recorder.recordBody cfg job outputPath env with
  | ok r => exact ⟨r, by simp [Recorder.record, h]⟩
  | error msg =>
    exact ⟨{ success := false, outputPath := some outputPath, error := some msg },
      by simp [Recorder.record, h]⟩

/-! ### Claim C7: `stopAll` counts and aborts every active entry -/

/-- C7.  For every scheduler state, `stopAllRecordings` returns exactly the
number of entries `getActiveRecordings` (the `listActive()` read) shows at
call time, and in the post state every active entry's cancellation handle
is aborted. -/
theorem spec_C7 (s : SchedState) :
    (stopAllRecordings s).1 = (getActiveRecordings s).length
    ∧ (stopAllRecordings s).2.active.all (fun p => p.2.aborted) = true := by
  constructor
  · simp [stopAllRecordings, getActiveRecordings]
  · simp [stopAllRecordings, List.all_eq_true]

/-! ### Claim C10: triggering a job with no `JobState` reports success but
records nothing -/

/-- C10.  If the job is present in the configuration but `jobStates` has no
entry for its id (for example after `stopScheduler`), `triggerJob` still
returns `{triggered: true}` while the scheduler state - active set
included - is completely unchanged: `executeJob` returns immediately when
the state is missing, so no `RecordingInstance` is ever registered. -/
theorem spec_C10 (cfg : AppConfig) (jobId : String) (nowIso : String)
    (s : SchedState) (job : JobConfig)
    (hfind : cfg.jobs.find? (fun j => j.id == some jobId) = some job)
    (hactive : hasActiveName s job.name = false)
    (hstate : lookupAssoc s.jobStates (idBang job) = none) :
    triggerJob cfg jobId nowIso s = (⟨true, none⟩, s) := by
  simp [triggerJob, hfind, hactive, executeJobStart, hstate]

/-- Witness for C10: on the pristine state (no `startScheduler` ran, so
`jobStates` is empty), triggering `"demo-id"` of the demo configuration
returns `{triggered: true}` and leaves the state untouched. -/
theorem spec_C10_witness :
    Fixtures.demoCfg.jobs.find? (fun j => j.id == some "demo-id") = some Fixtures.demoJob
    ∧ hasActiveName initState Fixtures.demoJob.name = false
    ∧ lookupAssoc initState.jobStates (idBang Fixtures.demoJob) = none
    ∧ triggerJob Fixtures.demoCfg "demo-id" Fixtures.iso1 initState = (⟨true, none⟩, initState) :=
  ⟨by decide, by decide, by decide,
    spec_C10 Fixtures.demoCfg "demo-id" Fixtures.iso1 initState Fixtures.demoJob
      (by decide) (by decide) (by decide)⟩

/-! ### Claim C2: are the three reads snapshots? -/

/-- C2 fails as stated: `getCompletedRecordings` returns the internal
`completedRecordings` array itself, so completing the in-flight `"demo"`
recording changes the value a caller obtained earlier (it grows from the
empty history to one entry). -/
theorem spec_C2_cex : ¬ snapshotClaim := by
  intro h
  have h2 := (h Fixtures.demoLib Fixtures.evsOneActive
    (.finishEv 0 0 (.result Fixtures.okResult))).2.1
  exact absurd h2 (by decide)

/-- C2, amended.  `getJobStates` and `getActiveRecordings` build fresh
arrays, so the references a previously returned value holds are fixed at
call time (no scheduler step changes them); `getCompletedRecordings`
returns the live internal array, so the references a previously returned
value holds always track the current state - and this is an observable
difference: completing the demo recording changes what the earlier
`listCompleted()` value dereferences to.  (The elements of all three
returns are the live internal objects, mutated in place, as the
counterexample's status change also shows.) -/
theorem spec_C2 :
    (∀ (lib : CronLib) (e : Event) (s : SchedState),
        instRetRefs (stepEvent lib e s) (listActiveRet s)
          = instRetRefs s (listActiveRet s))
    ∧ (∀ (lib : CronLib) (e : Event) (s : SchedState),
        instRetRefs (stepEvent lib e s) (listCompletedRet s)
          = (stepEvent lib e s).completed)
    ∧ observeInstances
        (stepEvent Fixtures.demoLib (.finishEv 0 0 (.result Fixtures.okResult))
          (runEvents Fixtures.demoLib Fixtures.evsOneActive))
        (listCompletedRet (runEvents Fixtures.demoLib Fixtures.evsOneActive))
      ≠ observeInstances (runEvents Fixtures.demoLib Fixtures.evsOneActive)
        (listCompletedRet (runEvents Fixtures.demoLib Fixtures.evsOneActive)) := by
  refine ⟨fun lib e s => rfl, fun lib e s => rfl, by decide⟩

/-! ### Claim C1: at most one active recording per job name? -/

/-- C1 fails as stated: a cron-timer fire does not check the active set for
the job's name (only `triggerJob` does), so starting the scheduler,
manually triggering `"demo"` and then letting its timer fire while that
recording is still in flight leaves two active instances named `"demo"`. -/
theorem spec_C1_cex : ¬ activeNameInvariantClaim := by
  intro h
  exact absurd (h Fixtures.demoLib Fixtures.evsOverlap "demo") (by decide)

theorem mem_setAssoc {α β : Type} [DecidableEq α] {l : List (α × β)} {k : α} {v : β}
    {x : α × β} (h : x ∈ setAssoc l k v) : x = (k, v) ∨ x ∈ l := by
  induction l with
  | nil =>
    have he : setAssoc ([] : List (α × β)) k v = [(k, v)] := rfl
    rw [he] at h
    exact Or.inl (List.mem_singleton.mp h)
  | cons hd t ih =>
    obtain ⟨k0, v0⟩ := hd
    by_cases h0 : k0 = k
    · have he : setAssoc ((k0, v0) :: t) k v = (k, v) :: t := by
        simp [setAssoc, h0]
      rw [he] at h
      rcases List.mem_cons.mp h with h1 | h1
      · exact Or.inl h1
      · exact Or.inr (List.mem_cons_of_mem _ h1)
    · have he : setAssoc ((k0, v0) :: t) k v = (k0, v0) :: setAssoc t k v := by
        simp [setAssoc, h0]
      rw [he] at h
      rcases List.mem_cons.mp h with h1 | h1
      · exact Or.inr (h1 ▸ List.mem_cons_self _ _)
      · rcases ih h1 with h2 | h2
        · exact Or.inl h2
        · exact Or.inr (List.mem_cons_of_mem _ h2)

theorem countP_updateAssoc {α β : Type} [DecidableEq α] (l : List (α × β)) (k : α)
    (f : β → β) (p : (α × β) → Bool) (hp : ∀ v, p (k, f v) = p (k, v)) :
    (updateAssoc l k f).countP p = l.countP p := by
  induction l with
  | nil => rfl
  | cons hd t ih =>
    obtain ⟨k0, v0⟩ := hd
    by_cases h0 : k0 = k
    · subst h0
      simp [updateAssoc, List.countP_cons, hp]
    · simp [updateAssoc, if_neg h0, List.countP_cons, ih]

theorem applyOutcomeInst_jobName (o : ExecOutcome) (i : RecordingInstance) :
    (applyOutcomeInst o i).jobName = i.jobName := by
  cases o with
  | result r =>
    simp only [applyOutcomeInst]
    split <;> split <;> rfl
  | thrown msg => rfl

/-! ### Field-preservation lemmas for `startScheduler` -/

theorem startJob_active (lib : CronLib) (t : ℕ) (cfg : AppConfig) (s : SchedState)
    (j : JobConfig) : (startJob lib t cfg s j).active = s.active := by
  unfold startJob
  cases j.schedule with
  | none => rfl
  | some sch => dsimp only; split <;> rfl

theorem startJob_instHeap (lib : CronLib) (t : ℕ) (cfg : AppConfig) (s : SchedState)
    (j : JobConfig) : (startJob lib t cfg s j).instHeap = s.instHeap := by
  unfold startJob
  cases j.schedule with
  | none => rfl
  | some sch => dsimp only; split <;> rfl

theorem startJob_completed (lib : CronLib) (t : ℕ) (cfg : AppConfig) (s : SchedState)
    (j : JobConfig) : (startJob lib t cfg s j).completed = s.completed := by
  unfold startJob
  cases j.schedule with
  | none => rfl
  | some sch => dsimp only; split <;> rfl

theorem startJob_pending (lib : CronLib) (t : ℕ) (cfg : AppConfig) (s : SchedState)
    (j : JobConfig) : (startJob lib t cfg s j).pending = s.pending := by
  unfold startJob
  cases j.schedule with
  | none => rfl
  | some sch => dsimp only; split <;> rfl

theorem startJob_nextRef (lib : CronLib) (t : ℕ) (cfg : AppConfig) (s : SchedState)
    (j : JobConfig) : (startJob lib t cfg s j).nextRef = s.nextRef + 1 := by
  unfold startJob
  cases j.schedule with
  | none => rfl
  | some sch => dsimp only; split <;> rfl

theorem foldl_startJob_active (lib : CronLib) (t : ℕ) (cfg : AppConfig)
    (l : List JobConfig) : ∀ s : SchedState,
    (l.foldl (startJob lib t cfg) s).active = s.active := by
  induction l with
  | nil => intro s; rfl
  | cons j tl ih =>
    intro s
    simp only [List.foldl_cons]
    rw [ih, startJob_active]

theorem foldl_startJob_instHeap (lib : CronLib) (t : ℕ) (cfg : AppConfig)
    (l : List JobConfig) : ∀ s : SchedState,
    (l.foldl (startJob lib t cfg) s).instHeap = s.instHeap := by
  induction l with
  | nil => intro s; rfl
  | cons j tl ih =>
    intro s
    simp only [List.foldl_cons]
    rw [ih, startJob_instHeap]

theorem foldl_startJob_completed (lib : CronLib) (t : ℕ) (cfg : AppConfig)
    (l : List JobConfig) : ∀ s : SchedState,
    (l.foldl (startJob lib t cfg) s).completed = s.completed := by
  induction l with
  | nil => intro s; rfl
  | cons j tl ih =>
    intro s
    simp only [List.foldl_cons]
    rw [ih, startJob_completed]

theorem foldl_startJob_pending (lib : CronLib) (t : ℕ) (cfg : AppConfig)
    (l : List JobConfig) : ∀ s : SchedState,
    (l.foldl (startJob lib t cfg) s).pending = s.pending := by
  induction l with
  | nil => intro s; rfl
  | cons j tl ih =>
    intro s
    simp only [List.foldl_cons]
    rw [ih, startJob_pending]

theorem foldl_startJob_nextRef_le (lib : CronLib) (t : ℕ) (cfg : AppConfig)
    (l : List JobConfig) : ∀ s : SchedState,
    s.nextRef ≤ (l.foldl (startJob lib t cfg) s).nextRef := by
  induction l with
  | nil => intro s; exact le_refl _
  | cons j tl ih =>
    intro s
    simp only [List.foldl_cons]
    calc s.nextRef ≤ (startJob lib t cfg s j).nextRef := by
          rw [startJob_nextRef]; omega
      _ ≤ _ := ih _

/-! ### Preservation of the per-name active bound on timer-free paths -/

theorem executeJobStart_inv (cfg : AppConfig) (job : JobConfig) (nowIso : String)
    (s : SchedState) (hinv : schedInv s)
    (hno : hasActiveName s job.name = false) :
    schedInv (executeJobStart cfg job nowIso s) := by
  obtain ⟨hfresh, hcnt⟩ := hinv
  unfold executeJobStart
  cases hst : lookupAssoc s.jobStates (idBang job) with
  | none => exact ⟨hfresh, hcnt⟩
  | some stRef =>
    dsimp only
    set instanceId := sanitizeForFilename job.name ++ "_" ++ makeTimestamp nowIso with hiid
    set inst : RecordingInstance :=
      { id := instanceId, jobName := job.name, startedAt := nowIso
        durationSeconds := job.durationSeconds
        outputPath := pathJoin cfg.outputDir (instanceId ++ ".mp4")
        status := .recording, error := none } with hinstdef
    constructor
    · intro p hp
      rcases mem_setAssoc hp with h | h
      · subst h
        exact Nat.lt_succ_self _
      · have := hfresh p h
        show p.2.instRef < s.nextRef + 1
        omega
    · intro name
      have hold : ∀ x ∈ s.active,
          activeNamePred (setAssoc s.instHeap s.nextRef inst) name x
            = activeNamePred s.instHeap name x := by
        intro x hx
        have hlt := hfresh x hx
        have hne : ¬ s.nextRef = x.2.instRef := by omega
        simp only [activeNamePred, lookup_setAssoc, if_neg hne]
      have hlooknew : lookupAssoc (setAssoc s.instHeap s.nextRef inst) s.nextRef
          = some inst := by
        rw [lookup_setAssoc]
        simp
      show (setAssoc s.active instanceId ⟨s.nextRef, false⟩).countP
          (activeNamePred (setAssoc s.instHeap s.nextRef inst) name) ≤ 1
      by_cases hname : job.name = name
      · subst hname
        have h2 : ∀ x ∈ s.active, ¬ activeNamePred s.instHeap job.name x = true := by
          simpa [hasActiveName, List.any_eq_false] using hno
        have hallf : ∀ x ∈ s.active,
            activeNamePred (setAssoc s.instHeap s.nextRef inst) job.name x = false := by
          intro x hx
          rw [hold x hx]
          simpa using h2 x hx
        rw [countP_setAssoc_all_false _ _ _ _ hallf]
        split <;> omega
      · have hnew : activeNamePred (setAssoc s.instHeap s.nextRef inst) name
            (instanceId, ⟨s.nextRef, false⟩) = false := by
          simp only [activeNamePred]
          rw [hlooknew]
          simp [hinstdef, hname]
        calc (setAssoc s.active instanceId ⟨s.nextRef, false⟩).countP
              (activeNamePred (setAssoc s.instHeap s.nextRef inst) name)
            ≤ s.active.countP (activeNamePred (setAssoc s.instHeap s.nextRef inst) name) :=
              countP_setAssoc_le _ _ _ _ hnew
          _ = s.active.countP (activeNamePred s.instHeap name) :=
              List.countP_congr (fun x hx => by rw [hold x hx])
          _ ≤ 1 := hcnt name

theorem executeJobFinish_inv (lib : CronLib) (idx t : ℕ) (o : ExecOutcome)
    (s : SchedState) (hinv : schedInv s) :
    schedInv (executeJobFinish lib idx t o s) := by
  obtain ⟨hfresh, hcnt⟩ := hinv
  unfold executeJobFinish
  cases hp : s.pending.get? idx with
  | none => exact ⟨hfresh, hcnt⟩
  | some p =>
    dsimp only
    constructor
    · intro q hq
      have hq1 := mem_eraseKey hq
      show q.2.instRef < s.nextRef
      exact hfresh q hq1
    · intro name
      show (eraseKey s.active p.instanceId).countP
          (activeNamePred (updateAssoc s.instHeap p.instRef (applyOutcomeInst o)) name) ≤ 1
      have hpred : ∀ x : String × ActiveEntry,
          activeNamePred (updateAssoc s.instHeap p.instRef (applyOutcomeInst o)) name x
            = activeNamePred s.instHeap name x := by
        intro x
        simp only [activeNamePred, lookup_updateAssoc]
        by_cases h : p.instRef = x.2.instRef
        · rw [if_pos h]
          cases lookupAssoc s.instHeap x.2.instRef with
          | none => rfl
          | some i => simp [applyOutcomeInst_jobName]
        · rw [if_neg h]
      calc (eraseKey s.active p.instanceId).countP
            (activeNamePred (updateAssoc s.instHeap p.instRef (applyOutcomeInst o)) name)
          = (eraseKey s.active p.instanceId).countP (activeNamePred s.instHeap name) :=
            List.countP_congr (fun x _ => by rw [hpred x])
        _ ≤ s.active.countP (activeNamePred s.instHeap name) := countP_eraseKey_le _ _ _
        _ ≤ 1 := hcnt name

theorem stopRecording_inv (iid : String) (s : SchedState) (hinv : schedInv s) :
    schedInv (stopRecording iid s).2 := by
  obtain ⟨hfresh, hcnt⟩ := hinv
  unfold stopRecording
  cases h : lookupAssoc s.active iid with
  | none => exact ⟨hfresh, hcnt⟩
  | some e =>
    dsimp only
    constructor
    · intro p hp
      have hmem : p.2.instRef ∈
          (updateAssoc s.active iid (fun q => { q with aborted := true })).map
            (fun q => q.2.instRef) := List.mem_map_of_mem _ hp
      rw [map_updateAssoc s.active iid (fun q => { q with aborted := true })
        (fun q => q.2.instRef) (fun k0 v => rfl)] at hmem
      obtain ⟨q, hq, hgq⟩ := List.mem_map.mp hmem
      show p.2.instRef < s.nextRef
      rw [← hgq]
      exact hfresh q hq
    · intro name
      show (updateAssoc s.active iid (fun q => { q with aborted := true })).countP
          (activeNamePred s.instHeap name) ≤ 1
      rw [countP_updateAssoc s.active iid (fun q => { q with aborted := true })
        (activeNamePred s.instHeap name) (fun v => rfl)]
      exact hcnt name

theorem stopAllRecordings_inv (s : SchedState) (hinv : schedInv s) :
    schedInv (stopAllRecordings s).2 := by
  obtain ⟨hfresh, hcnt⟩ := hinv
  constructor
  · intro p hp
    obtain ⟨q, hq, hgq⟩ := List.mem_map.mp hp
    show p.2.instRef < s.nextRef
    rw [← hgq]
    exact hfresh q hq
  · intro name
    show (s.active.map (fun p => (p.1, { p.2 with aborted := true }))).countP
        (activeNamePred s.instHeap name) ≤ 1
    rw [List.countP_map]
    calc s.active.countP
          ((activeNamePred s.instHeap name) ∘ (fun p => (p.1, { p.2 with aborted := true })))
        = s.active.countP (activeNamePred s.instHeap name) :=
          List.countP_congr (fun x _ => Iff.rfl)
      _ ≤ 1 := hcnt name

theorem startScheduler_inv (lib : CronLib) (t : ℕ) (cfg : AppConfig)
    (s : SchedState) (hinv : schedInv s) :
    schedInv (startScheduler lib t cfg s) := by
  obtain ⟨hfresh, hcnt⟩ := hinv
  have ha : (startScheduler lib t cfg s).active = s.active :=
    foldl_startJob_active lib t cfg cfg.jobs s
  have hh : (startScheduler lib t cfg s).instHeap = s.instHeap :=
    foldl_startJob_instHeap lib t cfg cfg.jobs s
  have hn : s.nextRef ≤ (startScheduler lib t cfg s).nextRef :=
    foldl_startJob_nextRef_le lib t cfg cfg.jobs s
  constructor
  · intro p hp
    rw [ha] at hp
    have := hfresh p hp
    omega
  · intro name
    unfold countActiveName
    rw [ha, hh]
    exact hcnt name

theorem stepEvent_inv (lib : CronLib) (e : Event) (s : SchedState)
    (hinv : schedInv s) (hnt : e.isTimerFire = false) :
    schedInv (stepEvent lib e s) := by
  cases e with
  | startEv t cfg => exact startScheduler_inv lib t cfg s hinv
  | stopEv => exact ⟨hinv.1, hinv.2⟩
  | triggerEv cfg jobId nowIso =>
    show schedInv (triggerJob cfg jobId nowIso s).2
    unfold triggerJob
    cases hf : cfg.jobs.find? (fun j => j.id == some jobId) with
    | none => exact hinv
    | some job =>
      dsimp only
      cases hact : hasActiveName s job.name with
      | true => simp only [if_pos rfl]; exact hinv
      | false =>
        simp only [Bool.false_eq_true, if_false]
        exact executeJobStart_inv cfg job nowIso s hinv hact
  | timerFireEv jobId nowIso => simp [Event.isTimerFire] at hnt
  | finishEv idx t o => exact executeJobFinish_inv lib idx t o s hinv
  | stopOneEv iid => exact stopRecording_inv iid s hinv
  | stopAllEv => exact stopAllRecordings_inv s hinv

theorem runEvents_inv (lib : CronLib) (evs : List Event)
    (h : noTimerFire evs = true) : schedInv (runEvents lib evs) := by
  suffices aux : ∀ (l : List Event) (s : SchedState), schedInv s →
      l.all (fun e => !e.isTimerFire) = true →
      schedInv (l.foldl (fun s e => stepEvent lib e s) s) by
    refine aux evs initState ⟨?_, ?_⟩ h
    · intro p hp
      exact absurd hp (List.not_mem_nil p)
    · intro name
      simp [countActiveName, initState]
  intro l
  induction l with
  | nil => intro s hs _; exact hs
  | cons e tl ih =>
    intro s hs hall
    simp only [List.all_cons, Bool.and_eq_true] at hall
    have hnt : e.isTimerFire = false := by
      rcases hall with ⟨h1, _⟩
      simpa using h1
    exact ih _ (stepEvent_inv lib e s hs hnt) hall.2

/-- C1, amended.  The manual-trigger path does enforce the per-name bound
(it refuses to start while an active recording carries the job's name, and
check and registration run in one synchronous segment), but the cron-timer
path performs no such check; the invariant therefore holds exactly on the
histories free of timer fires: after any sequence of
start/stop/trigger/finish/stopOne/stopAll steps, `listActive()` contains at
most one entry per job name. -/
theorem spec_C1 (lib : CronLib) (evs : List Event) (name : String)
    (h : noTimerFire evs = true) :
    countActiveName (runEvents lib evs) name ≤ 1 :=
  (runEvents_inv lib evs h).2 name

/-- Witness for C1: the trigger-only demo history keeps at most one active
`"demo"` recording. -/
theorem spec_C1_witness :
    noTimerFire Fixtures.evsOneActive = true
    ∧ countActiveName (runEvents Fixtures.demoLib Fixtures.evsOneActive) "demo" ≤ 1 :=
  ⟨by decide, spec_C1 Fixtures.demoLib Fixtures.evsOneActive "demo" (by decide)⟩

theorem executeJobStart_completed (cfg : AppConfig) (job : JobConfig) (nowIso : String)
    (s : SchedState) : (executeJobStart cfg job nowIso s).completed = s.completed := by
  unfold executeJobStart
  cases lookupAssoc s.jobStates (idBang job) <;> rfl

theorem stepEvent_completed_le (lib : CronLib) (e : Event) (s : SchedState)
    (h : s.completed.length ≤ MAX_COMPLETED) :
    (stepEvent lib e s).completed.length ≤ MAX_COMPLETED := by
  cases e with
  | startEv t cfg =>
    show (startScheduler lib t cfg s).completed.length ≤ MAX_COMPLETED
    unfold startScheduler
    rw [foldl_startJob_completed]
    exact h
  | stopEv => exact h
  | triggerEv cfg jobId nowIso =>
    show ((triggerJob cfg jobId nowIso s).2).completed.length ≤ MAX_COMPLETED
    unfold triggerJob
    cases cfg.jobs.find? (fun j => j.id == some jobId) with
    | none => exact h
    | some job =>
      dsimp only
      cases hasActiveName s job.name with
      | true => simpa using h
      | false => simpa [executeJobStart_completed] using h
  | timerFireEv jobId nowIso =>
    show (timerFire jobId nowIso s).completed.length ≤ MAX_COMPLETED
    unfold timerFire
    cases lookupAssoc s.tasks jobId with
    | none => exact h
    | some tk =>
      dsimp only
      rw [executeJobStart_completed]
      exact h
  | finishEv idx t o =>
    show (executeJobFinish lib idx t o s).completed.length ≤ MAX_COMPLETED
    unfold executeJobFinish
    cases s.pending.get? idx with
    | none => exact h
    | some p =>
      dsimp only
      exact List.length_take_le _ _
  | stopOneEv iid =>
    show ((stopRecording iid s).2).completed.length ≤ MAX_COMPLETED
    unfold stopRecording
    cases lookupAssoc s.active iid with
    | none => exact h
    | some e => exact h
  | stopAllEv => exact h

theorem runEvents_completed_le (lib : CronLib) (evs : List Event) :
    (runEvents lib evs).completed.length ≤ MAX_COMPLETED := by
  suffices aux : ∀ (l : List Event) (s : SchedState),
      s.completed.length ≤ MAX_COMPLETED →
      (l.foldl (fun s e => stepEvent lib e s) s).completed.length ≤ MAX_COMPLETED by
    refine aux evs initState ?_
    simp [initState, MAX_COMPLETED]
  intro l
  induction l with
  | nil => intro s hs; exact hs
  | cons e tl ih =>
    intro s hs
    exact ih _ (stepEvent_completed_le lib e s hs)

/-- C6.  First part: whenever an in-flight execution settles (any outcome -
a result or a thrown exception), the continuation removes the instance's
key from the active set, unshifts the instance onto the completed history
trimmed to `MAX_COMPLETED` (newest first; when the history was full the
oldest entry is evicted), and writes `lastResult`/`lastError` and a
`nextRun` recomputed from the job's timer (null when there is none) into
the captured `JobState`.  Second part: along every event history the
completed history never exceeds `MAX_COMPLETED` entries. -/
theorem spec_C6 :
    (∀ (lib : CronLib) (idx t : ℕ) (o : ExecOutcome) (s : SchedState)
        (p : PendingExec) (st0 : JobState),
      s.pending.get? idx = some p →
      (s.active.map Prod.fst).Nodup →
      lookupAssoc s.jsHeap p.stateRef = some st0 →
        lookupAssoc (executeJobFinish lib idx t o s).active p.instanceId = none
        ∧ (executeJobFinish lib idx t o s).completed
            = (p.instRef :: s.completed).take MAX_COMPLETED
        ∧ (executeJobFinish lib idx t o s).completed.length ≤ MAX_COMPLETED
        ∧ (executeJobFinish lib idx t o s).completed.head? = some p.instRef
        ∧ (s.completed.length = MAX_COMPLETED →
            (executeJobFinish lib idx t o s).completed
              = p.instRef :: s.completed.dropLast)
        ∧ ∃ st1,
            lookupAssoc (executeJobFinish lib idx t o s).jsHeap p.stateRef = some st1
            ∧ st1.lastResult = execLastResult o
            ∧ st1.lastError = execLastError o
            ∧ st1.nextRun
                = (lookupAssoc s.tasks p.jobId).bind (fun tk => lib.next tk.schedule t))
    ∧ ∀ (lib : CronLib) (evs : List Event),
        (runEvents lib evs).completed.length ≤ MAX_COMPLETED := by
  constructor
  · intro lib idx t o s p st0 hp hnd hst
    unfold executeJobFinish
    rw [hp]
    dsimp only
    refine ⟨?_, rfl, ?_, ?_, ?_, ?_⟩
    · exact lookup_eraseKey_self s.active p.instanceId hnd
    · exact List.length_take_le _ _
    · rw [show MAX_COMPLETED = 49 + 1 from rfl, List.take_succ_cons]
      rfl
    · intro hlen
      rw [show MAX_COMPLETED = 49 + 1 from rfl, List.take_succ_cons]
      rw [List.dropLast_eq_take, hlen]
      rfl
    · rw [lookup_updateAssoc, if_pos rfl, hst]
      refine ⟨_, rfl, ?_, ?_, rfl⟩
      · cases o <;> rfl
      · cases o <;> rfl
  · exact runEvents_completed_le

/-- Witness for C6: settling the in-flight demo recording with a successful
result empties the active set for its key (and its history entry is the
newest). -/
theorem spec_C6_witness :
    (runEvents Fixtures.demoLib Fixtures.evsOneActive).pending.get? 0
        = some ⟨"demo_2026-01-01T000000.000Z", 1, 0, "demo-id"⟩
    ∧ ((runEvents Fixtures.demoLib Fixtures.evsOneActive).active.map Prod.fst).Nodup
    ∧ lookupAssoc (runEvents Fixtures.demoLib Fixtures.evsOneActive).jsHeap 0
        = some { id := "demo-id", name := "demo", schedule := some "* * * * *"
                 nextRun := none, lastRun := some Fixtures.iso1
                 lastResult := none, lastError := none }
    ∧ lookupAssoc (executeJobFinish Fixtures.demoLib 0 0 (.result Fixtures.okResult)
          (runEvents Fixtures.demoLib Fixtures.evsOneActive)).active
        "demo_2026-01-01T000000.000Z" = none :=
  ⟨by decide, by decide, by decide,
    (spec_C6.1 Fixtures.demoLib 0 0 (.result Fixtures.okResult)
      (runEvents Fixtures.demoLib Fixtures.evsOneActive)
      ⟨"demo_2026-01-01T000000.000Z", 1, 0, "demo-id"⟩
      { id := "demo-id", name := "demo", schedule := some "* * * * *"
        nextRun := none, lastRun := some Fixtures.iso1
        lastResult := none, lastError := none }
      (by decide) (by decide) (by decide)).1⟩

theorem recordBody_okEnv (cfg : AppConfig) (job : JobConfig) (outputPath : String)
    (pres : Except String Unit) :
    Recorder.recordBody cfg job outputPath (Recorder.okEnv pres)
      = pres.map (fun _ =>
          { success := true, outputPath := some outputPath, error := none }) := by
  unfold Recorder.recordBody Recorder.okEnv
  cases pres with
  | ok u =>
    cases u
    simp [bind, Except.bind, Except.map, ite_self, pure, Except.pure]
  | error m =>
    simp [bind, Except.bind, Except.map, ite_self, pure, Except.pure]

/-- C3.  For every run of the capture loop (any iteration oracle, clock,
fuel and encoder outcome) reached through a healthy browser connection and
page lookup: when the loop captured zero frames - whatever made it exit -
the recording attempt yields `{success: false, error}` whose error is the
zero-frames `RecordingError` message (which mentions `0 frames`);
conversely, when at least one frame was captured and the encoder
subprocess closed with exit code 0, the attempt yields
`{success: true, outputPath}`. -/
theorem spec_C3 (cfg : AppConfig) (job : JobConfig) (outputPath : String)
    (env : ℕ → Recorder.IterEnv) (start : ℚ) (fuel : ℕ)
    (proc : Recorder.ProcOutcome) :
    ((Recorder.captureLoop env start job.durationSeconds
        (Recorder.effectiveFps job) fuel).totalFrames = 0 →
      Recorder.record cfg job outputPath
          (Recorder.okEnv (Recorder.recordPageResult
            (Recorder.captureLoop env start job.durationSeconds
              (Recorder.effectiveFps job) fuel) proc))
        = .ok { success := false, outputPath := some outputPath
                error := some Recorder.zeroFramesMsg }
      ∧ ∃ pre post, Recorder.zeroFramesMsg = pre ++ "0 frames" ++ post)
    ∧ (0 < (Recorder.captureLoop env start job.durationSeconds
          (Recorder.effectiveFps job) fuel).totalFrames →
      ∀ tail, proc = .closed 0 tail →
      Recorder.record cfg job outputPath
          (Recorder.okEnv (Recorder.recordPageResult
            (Recorder.captureLoop env start job.durationSeconds
              (Recorder.effectiveFps job) fuel) proc))
        = .ok { success := true, outputPath := some outputPath, error := none }) := by
  constructor
  · intro h0
    constructor
    · have hpipe : Recorder.recordPageResult
          (Recorder.captureLoop env start job.durationSeconds
            (Recorder.effectiveFps job) fuel) proc
          = .error Recorder.zeroFramesMsg := by
        unfold Recorder.recordPageResult
        rw [if_pos h0]
      rw [Recorder.record, recordBody_okEnv, hpipe]
      rfl
    · exact ⟨"Recording captured ", " — screenshot failed immediately", rfl⟩
  · intro hpos tail hproc
    have hpipe : Recorder.recordPageResult
        (Recorder.captureLoop env start job.durationSeconds
          (Recorder.effectiveFps job) fuel) proc = .ok () := by
      unfold Recorder.recordPageResult
      rw [if_neg (by omega), hproc]
      unfold Recorder.procDoneResult
      simp
    rw [Recorder.record, recordBody_okEnv, hpipe]
    rfl

/-- Witness for C3: a first-frame screenshot failure gives a zero-frame
loop, and the attempt reports the zero-frames error; an ideal loop with a
cleanly exiting encoder reports success. -/
theorem spec_C3_witness :
    (Recorder.captureLoop Fixtures.failShotEnv 0 Fixtures.demoJob.durationSeconds
        (Recorder.effectiveFps Fixtures.demoJob) 30).totalFrames = 0
    ∧ Recorder.record Fixtures.demoCfg Fixtures.demoJob "./recordings/demo.mp4"
        (Recorder.okEnv (Recorder.recordPageResult
          (Recorder.captureLoop Fixtures.failShotEnv 0 Fixtures.demoJob.durationSeconds
            (Recorder.effectiveFps Fixtures.demoJob) 30) (.closed 1 "boom")))
      = .ok { success := false, outputPath := some "./recordings/demo.mp4"
              error := some Recorder.zeroFramesMsg }
    ∧ 0 < (Recorder.captureLoop (fun _ => Recorder.idealIterEnv 1000) 0
        Fixtures.demoJob.durationSeconds (Recorder.effectiveFps Fixtures.demoJob) 30).totalFrames
    ∧ Recorder.record Fixtures.demoCfg Fixtures.demoJob "./recordings/demo.mp4"
        (Recorder.okEnv (Recorder.recordPageResult
          (Recorder.captureLoop (fun _ => Recorder.idealIterEnv 1000) 0
            Fixtures.demoJob.durationSeconds (Recorder.effectiveFps Fixtures.demoJob) 30)
          (.closed 0 "")))
      = .ok { success := true, outputPath := some "./recordings/demo.mp4", error := none } :=
  ⟨by decide,
   ((spec_C3 Fixtures.demoCfg Fixtures.demoJob "./recordings/demo.mp4"
      Fixtures.failShotEnv 0 30 (.closed 1 "boom")).1 (by decide)).1,
   by decide,
   (spec_C3 Fixtures.demoCfg Fixtures.demoJob "./recordings/demo.mp4"
      (fun _ => Recorder.idealIterEnv 1000) 0 30 (.closed 0 "")).2 (by decide) "" rfl⟩

theorem idealLoop_frameTimes (b : ℕ) (start durationSeconds interval : ℚ)
    (hi : 0 ≤ interval) :
    ∀ (fuel i n bytes : ℕ) (times : List ℚ),
      times.reverse = (List.range n).map (fun k : ℕ => start + (k : ℚ) * interval) →
      (Recorder.captureLoopAux (fun _ => Recorder.idealIterEnv b) start durationSeconds
          interval fuel i (start + (n : ℚ) * interval) n bytes times).frameTimes
        = (List.range (Recorder.captureLoopAux (fun _ => Recorder.idealIterEnv b) start
              durationSeconds interval fuel i (start + (n : ℚ) * interval) n bytes
              times).totalFrames).map
            (fun k : ℕ => start + (k : ℚ) * interval) := by
  intro fuel
  induction fuel with
  | zero =>
    intro i n bytes times ht
    simpa [Recorder.captureLoopAux] using ht
  | succ fuel ih =>
    intro i n bytes times ht
    rw [Recorder.captureLoopAux]
    simp only [Recorder.idealIterEnv, Bool.or_self, Bool.false_or, if_false]
    by_cases hd : durationSeconds ≤ (start + (n : ℚ) * interval - start) / 1000
    · rw [if_pos hd]
      simpa using ht
    · rw [if_neg hd]
      have harg : start + (n : ℚ) * interval + 0
          + max 0 (start + ((n + 1 : ℕ) : ℚ) * interval - (start + (n : ℚ) * interval + 0))
          = start + ((n + 1 : ℕ) : ℚ) * interval := by
        have h1 : start + ((n + 1 : ℕ) : ℚ) * interval
            - (start + (n : ℚ) * interval + 0) = interval := by
          push_cast
          ring
        rw [h1, max_eq_right hi]
        push_cast
        ring
      rw [harg]
      refine ih (i + 1) (n + 1) (bytes + b) ((start + (n : ℚ) * interval) :: times) ?_
      rw [List.reverse_cons, ht, List.range_succ, List.map_append]
      rfl

/-- C5.  First part: with zero capture/encode latency (the ideal oracle),
every counted frame of the capture loop is taken exactly at
`start + frameIndex * (1000 / fps)` milliseconds - the sleep target is
anchored to the absolute wall clock, so no drift accumulates.  Second
part: concretely, `fps = 2` over a 10-second duration captures 20 frames
at 0, 500, 1000, ..., 9500 ms. -/
theorem spec_C5 :
    (∀ (b : ℕ) (start durationSeconds fps : ℚ) (fuel : ℕ), 0 < fps →
      (Recorder.captureLoop (fun _ => Recorder.idealIterEnv b) start durationSeconds
          fps fuel).frameTimes
        = (List.range (Recorder.captureLoop (fun _ => Recorder.idealIterEnv b) start
              durationSeconds fps fuel).totalFrames).map
            (fun k : ℕ => start + (k : ℚ) * (1000 / fps)))
    ∧ (Recorder.captureLoop (fun _ => Recorder.idealIterEnv 1000) 0 10 2 25).frameTimes
        = [0, 500, 1000, 1500, 2000, 2500, 3000, 3500, 4000, 4500, 5000,
           5500, 6000, 6500, 7000, 7500, 8000, 8500, 9000, 9500] := by
  constructor
  · intro b start durationSeconds fps fuel hfps
    have hi : 0 ≤ 1000 / fps := le_of_lt (by positivity)
    have h0 := idealLoop_frameTimes b start durationSeconds (1000 / fps) hi fuel 0 0 0 []
      (by simp)
    unfold Recorder.captureLoop
    simpa using h0
  · decide

/-- Witness for C5: the anchoring theorem instantiated at `fps = 2`. -/
theorem spec_C5_witness :
    (0 : ℚ) < 2
    ∧ (Recorder.captureLoop (fun _ => Recorder.idealIterEnv 1000) 0 10 2 25).frameTimes
        = (List.range (Recorder.captureLoop (fun _ => Recorder.idealIterEnv 1000) 0 10 2
              25).totalFrames).map (fun k : ℕ => 0 + (k : ℚ) * (1000 / 2)) :=
  ⟨by norm_num, spec_C5.1 1000 0 10 2 25 (by norm_num)⟩

/-! ### Claim C8: an invalid cron expression is non-fatal -/

theorem startJob_invalid_self (lib : CronLib) (t : ℕ) (cfg : AppConfig)
    (s : SchedState) (job : JobConfig) (sch : String)
    (hsch : job.schedule = some sch) (hbad : lib.valid sch = false) :
    (startJob lib t cfg s job).jobStates = setAssoc s.jobStates (idBang job) s.nextRef
    ∧ (startJob lib t cfg s job).jsHeap
        = setAssoc s.jsHeap s.nextRef (mkInitialJobState job)
    ∧ (startJob lib t cfg s job).tasks = s.tasks
    ∧ (startJob lib t cfg s job).nextRef = s.nextRef + 1 := by
  unfold startJob
  rw [hsch]
  simp [hbad]

theorem startJob_tasks_other (lib : CronLib) (t : ℕ) (cfg : AppConfig)
    (s : SchedState) (j : JobConfig) (jid : String) (hne : ¬ idBang j = jid) :
    lookupAssoc (startJob lib t cfg s j).tasks jid = lookupAssoc s.tasks jid := by
  unfold startJob
  cases j.schedule with
  | none => rfl
  | some sch =>
    dsimp only
    split
    · rw [lookup_setAssoc, if_neg hne]
    · rfl

theorem startJob_jobStates_other (lib : CronLib) (t : ℕ) (cfg : AppConfig)
    (s : SchedState) (j : JobConfig) (jid : String) (hne : ¬ idBang j = jid) :
    lookupAssoc (startJob lib t cfg s j).jobStates jid = lookupAssoc s.jobStates jid := by
  unfold startJob
  cases j.schedule with
  | none =>
    dsimp only
    rw [lookup_setAssoc, if_neg hne]
  | some sch =>
    dsimp only
    split
    · rw [lookup_setAssoc, if_neg hne]
    · rw [lookup_setAssoc, if_neg hne]

theorem startJob_jsHeap_lt (lib : CronLib) (t : ℕ) (cfg : AppConfig)
    (s : SchedState) (j : JobConfig) (r : ℕ) (hr : r < s.nextRef) :
    lookupAssoc (startJob lib t cfg s j).jsHeap r = lookupAssoc s.jsHeap r := by
  have hne : ¬ s.nextRef = r := by omega
  unfold startJob
  cases j.schedule with
  | none =>
    dsimp only
    rw [lookup_setAssoc, if_neg hne]
  | some sch =>
    dsimp only
    split
    · rw [lookup_updateAssoc, if_neg hne, lookup_setAssoc, if_neg hne]
    · rw [lookup_setAssoc, if_neg hne]

theorem startFold_preserves (lib : CronLib) (t : ℕ) (cfg : AppConfig)
    (jid : String) (r : ℕ) :
    ∀ (l : List JobConfig) (s : SchedState), jid ∉ l.map idBang → r < s.nextRef →
      lookupAssoc (l.foldl (startJob lib t cfg) s).jobStates jid
          = lookupAssoc s.jobStates jid
      ∧ lookupAssoc (l.foldl (startJob lib t cfg) s).jsHeap r = lookupAssoc s.jsHeap r
      ∧ lookupAssoc (l.foldl (startJob lib t cfg) s).tasks jid
          = lookupAssoc s.tasks jid := by
  intro l
  induction l with
  | nil => intro s _ _; exact ⟨rfl, rfl, rfl⟩
  | cons j tl ih =>
    intro s hnotin hr
    simp only [List.map_cons, List.mem_cons] at hnotin
    push_neg at hnotin
    have hne : ¬ idBang j = jid := fun h => hnotin.1 h.symm
    have hr1 : r < (startJob lib t cfg s j).nextRef := by
      rw [startJob_nextRef]
      omega
    simp only [List.foldl_cons]
    obtain ⟨h1, h2, h3⟩ := ih (startJob lib t cfg s j) hnotin.2 hr1
    refine ⟨?_, ?_, ?_⟩
    · rw [h1, startJob_jobStates_other lib t cfg s j jid hne]
    · rw [h2, startJob_jsHeap_lt lib t cfg s j r hr]
    · rw [h3, startJob_tasks_other lib t cfg s j jid hne]

theorem startJob_jobStates_isSome_mono (lib : CronLib) (t : ℕ) (cfg : AppConfig)
    (s : SchedState) (j : JobConfig) (k : String)
    (h : (lookupAssoc s.jobStates k).isSome) :
    (lookupAssoc (startJob lib t cfg s j).jobStates k).isSome := by
  by_cases hne : idBang j = k
  · subst hne
    unfold startJob
    cases j.schedule with
    | none =>
      dsimp only
      rw [lookup_setAssoc, if_pos rfl]
      rfl
    | some sch =>
      dsimp only
      split
      · rw [lookup_setAssoc, if_pos rfl]
        rfl
      · rw [lookup_setAssoc, if_pos rfl]
        rfl
  · rw [startJob_jobStates_other lib t cfg s j k hne]
    exact h

theorem startFold_isSome_mono (lib : CronLib) (t : ℕ) (cfg : AppConfig) :
    ∀ (l : List JobConfig) (s : SchedState) (k : String),
      (lookupAssoc s.jobStates k).isSome →
      (lookupAssoc (l.foldl (startJob lib t cfg) s).jobStates k).isSome := by
  intro l
  induction l with
  | nil => intro s k h; exact h
  | cons j tl ih =>
    intro s k h
    simp only [List.foldl_cons]
    exact ih _ k (startJob_jobStates_isSome_mono lib t cfg s j k h)

theorem startJob_jobStates_self_isSome (lib : CronLib) (t : ℕ) (cfg : AppConfig)
    (s : SchedState) (j : JobConfig) :
    (lookupAssoc (startJob lib t cfg s j).jobStates (idBang j)).isSome := by
  unfold startJob
  cases j.schedule with
  | none =>
    dsimp only
    rw [lookup_setAssoc, if_pos rfl]
    rfl
  | some sch =>
    dsimp only
    split
    · rw [lookup_setAssoc, if_pos rfl]
      rfl
    · rw [lookup_setAssoc, if_pos rfl]
      rfl

theorem startFold_registers (lib : CronLib) (t : ℕ) (cfg : AppConfig) :
    ∀ (l : List JobConfig) (s : SchedState) (j : JobConfig), j ∈ l →
      (lookupAssoc (l.foldl (startJob lib t cfg) s).jobStates (idBang j)).isSome := by
  intro l
  induction l with
  | nil => intro s j hj; exact absurd hj (List.not_mem_nil j)
  | cons j0 tl ih =>
    intro s j hj
    simp only [List.foldl_cons]
    rcases List.mem_cons.mp hj with h | h
    · subst h
      exact startFold_isSome_mono lib t cfg tl _ (idBang j)
        (startJob_jobStates_self_isSome lib t cfg s j)
    · exact ih _ j h

theorem find_job_of_nodup (jid : String) (job : JobConfig) (hid : job.id = some jid) :
    ∀ (l : List JobConfig), job ∈ l → (l.map idBang).Nodup →
      l.find? (fun j => j.id == some jid) = some job := by
  intro l
  induction l with
  | nil => intro h _; exact absurd h (List.not_mem_nil job)
  | cons j0 tl ih =>
    intro hmem hnd
    simp only [List.map_cons, List.nodup_cons] at hnd
    rcases List.mem_cons.mp hmem with h | h
    · subst h
      have : (job.id == some jid) = true := by
        rw [hid]
        simp
      simp [List.find?, this]
    · have hne : (j0.id == some jid) = false := by
        by_contra hc
        have hj0 : j0.id = some jid := by
          have : (j0.id == some jid) = true := by
            cases hb : (j0.id == some jid) with
            | true => rfl
            | false => exact absurd hb hc
          exact eq_of_beq this
        have hidj0 : idBang j0 = jid := by rw [idBang, hj0]; rfl
        have hidjob : idBang job = jid := by rw [idBang, hid]; rfl
        have : idBang job ∈ tl.map idBang := List.mem_map_of_mem idBang h
        rw [hidjob, ← hidj0] at this
        exact hnd.1 this
      rw [List.find?]
      rw [hne]
      exact ih h hnd.2

theorem startFold_invalid (lib : CronLib) (t : ℕ) (cfg : AppConfig)
    (job : JobConfig) (jid sch : String) (hid : job.id = some jid)
    (hsch : job.schedule = some sch) (hbad : lib.valid sch = false) :
    ∀ (l : List JobConfig) (s : SchedState), job ∈ l → (l.map idBang).Nodup →
      lookupAssoc s.tasks jid = none →
      (∃ r, lookupAssoc (l.foldl (startJob lib t cfg) s).jobStates jid = some r
         ∧ lookupAssoc (l.foldl (startJob lib t cfg) s).jsHeap r
             = some (mkInitialJobState job))
      ∧ lookupAssoc (l.foldl (startJob lib t cfg) s).tasks jid = none := by
  have hidb : idBang job = jid := by rw [idBang, hid]; rfl
  intro l
  induction l with
  | nil => intro s h _ _; exact absurd h (List.not_mem_nil job)
  | cons j0 tl ih =>
    intro s hmem hnd htask
    simp only [List.map_cons, List.nodup_cons] at hnd
    simp only [List.foldl_cons]
    rcases List.mem_cons.mp hmem with h | h
    · subst h
      obtain ⟨hjs, hheap, htasks, hnr⟩ := startJob_invalid_self lib t cfg s job sch hsch hbad
      have hnotin : jid ∉ tl.map idBang := by
        rw [← hidb]
        exact hnd.1
      have hr : s.nextRef < (startJob lib t cfg s job).nextRef := by
        rw [hnr]
        omega
      obtain ⟨h1, h2, h3⟩ := startFold_preserves lib t cfg jid s.nextRef tl
        (startJob lib t cfg s job) hnotin hr
      refine ⟨⟨s.nextRef, ?_, ?_⟩, ?_⟩
      · rw [h1, hjs, ← hidb, lookup_setAssoc, if_pos rfl]
      · rw [h2, hheap, lookup_setAssoc, if_pos rfl]
      · rw [h3, htasks]
        exact htask
    · have hjidmem : jid ∈ tl.map idBang := by
        rw [← hidb]
        exact List.mem_map_of_mem idBang h
      have hne : ¬ idBang j0 = jid := fun hc => hnd.1 (hc ▸ hjidmem)
      have htask1 : lookupAssoc (startJob lib t cfg s j0).tasks jid = none := by
        rw [startJob_tasks_other lib t cfg s j0 jid hne]
        exact htask
      exact ih _ h hnd.2 htask1

/-- C8.  For a job whose configured cron expression fails to parse,
`startScheduler` still registers a fresh `JobState` (with `nextRun` null)
and creates no timer; every other job of the configuration is registered
as well (the parse failure is non-fatal to `start`), and a subsequent
manual trigger of the job still reports `{triggered: true}`. -/
theorem spec_C8 (lib : CronLib) (t : ℕ) (cfg : AppConfig) (s : SchedState)
    (job : JobConfig) (jid sch nowIso : String)
    (hid : job.id = some jid)
    (hmem : job ∈ cfg.jobs)
    (hnd : (cfg.jobs.map idBang).Nodup)
    (hsch : job.schedule = some sch)
    (hbad : lib.valid sch = false)
    (htask : lookupAssoc s.tasks jid = none)
    (hact : hasActiveName s job.name = false) :
    (∃ r, lookupAssoc (startScheduler lib t cfg s).jobStates jid = some r
       ∧ lookupAssoc (startScheduler lib t cfg s).jsHeap r
           = some (mkInitialJobState job)
       ∧ (mkInitialJobState job).nextRun = none)
    ∧ lookupAssoc (startScheduler lib t cfg s).tasks jid = none
    ∧ (∀ j ∈ cfg.jobs,
        (lookupAssoc (startScheduler lib t cfg s).jobStates (idBang j)).isSome)
    ∧ (triggerJob cfg jid nowIso (startScheduler lib t cfg s)).1
        = ⟨true, none⟩ := by
  obtain ⟨⟨r, hr1, hr2⟩, htasks1⟩ := startFold_invalid lib t cfg job jid sch hid hsch hbad
    cfg.jobs s hmem hnd htask
  refine ⟨⟨r, hr1, hr2, rfl⟩, htasks1, ?_, ?_⟩
  · intro j hj
    exact startFold_registers lib t cfg cfg.jobs s j hj
  · have hfind := find_job_of_nodup jid job hid cfg.jobs hmem hnd
    have hact1 : hasActiveName (startScheduler lib t cfg s) job.name = false := by
      unfold hasActiveName
      unfold startScheduler
      rw [foldl_startJob_active, foldl_startJob_instHeap]
      exact hact
    unfold triggerJob
    rw [hfind]
    simp [hact1]

/-- Witness for C8: with a croner that rejects `"not-a-cron"`, starting the
two-job configuration registers the `"bad"` job without a timer and leaves
it manually triggerable. -/
theorem spec_C8_witness :
    Fixtures.badJob ∈ Fixtures.badCfg.jobs
    ∧ (Fixtures.badCfg.jobs.map idBang).Nodup
    ∧ Fixtures.invalidLib.valid "not-a-cron" = false
    ∧ lookupAssoc
        (startScheduler Fixtures.invalidLib 0 Fixtures.badCfg initState).tasks
        "bad-id" = none
    ∧ (triggerJob Fixtures.badCfg "bad-id" Fixtures.iso1
        (startScheduler Fixtures.invalidLib 0 Fixtures.badCfg initState)).1
      = ⟨true, none⟩ := by
  have h := spec_C8 Fixtures.invalidLib 0 Fixtures.badCfg initState Fixtures.badJob
    "bad-id" "not-a-cron" Fixtures.iso1 rfl (by decide) (by decide) rfl (by decide)
    (by decide) (by decide)
  exact ⟨by decide, by decide, by decide, h.2.1, h.2.2.2⟩

/-! ### Claim C9: validated configurations select exactly one browser mode -/

theorem attachChromePath_modes (raw : Config.JVal) (c : AppConfig) :
    (Config.attachChromePath raw c).browserURL = c.browserURL
    ∧ (Config.attachChromePath raw c).executablePath = c.executablePath := by
  unfold Config.attachChromePath
  split
  · split <;> exact ⟨rfl, rfl⟩
  · exact ⟨rfl, rfl⟩

theorem attachAutoLaunchChrome_modes (raw : Config.JVal) (c : AppConfig) :
    (Config.attachAutoLaunchChrome raw c).browserURL = c.browserURL
    ∧ (Config.attachAutoLaunchChrome raw c).executablePath = c.executablePath := by
  unfold Config.attachAutoLaunchChrome
  split <;> exact ⟨rfl, rfl⟩

theorem attachDismissedChecks_modes (raw : Config.JVal) (c : AppConfig) :
    (Config.attachDismissedChecks raw c).browserURL = c.browserURL
    ∧ (Config.attachDismissedChecks raw c).executablePath = c.executablePath := by
  unfold Config.attachDismissedChecks
  split <;> exact ⟨rfl, rfl⟩

theorem attachMinimizeToTray_modes (raw : Config.JVal) (c : AppConfig) :
    (Config.attachMinimizeToTray raw c).browserURL = c.browserURL
    ∧ (Config.attachMinimizeToTray raw c).executablePath = c.executablePath := by
  unfold Config.attachMinimizeToTray
  split <;> exact ⟨rfl, rfl⟩

theorem attachOptionals_browserURL (raw : Config.JVal) (b : AppConfig) :
    (Config.attachOptionals raw b).browserURL = b.browserURL := by
  unfold Config.attachOptionals
  rw [(attachMinimizeToTray_modes raw _).1, (attachDismissedChecks_modes raw _).1,
    (attachAutoLaunchChrome_modes raw _).1, (attachChromePath_modes raw _).1]

theorem attachOptionals_executablePath (raw : Config.JVal) (b : AppConfig) :
    (Config.attachOptionals raw b).executablePath = b.executablePath := by
  unfold Config.attachOptionals
  rw [(attachMinimizeToTray_modes raw _).2, (attachDismissedChecks_modes raw _).2,
    (attachAutoLaunchChrome_modes raw _).2, (attachChromePath_modes raw _).2]

theorem buildConfig_modes (freshId : ℕ → String) (raw : Config.JVal)
    (jobVals : List Config.JVal) :
    ((Config.buildConfig freshId raw jobVals).browserURL.isSome
        ↔ (Config.buildConfig freshId raw jobVals).executablePath = none)
    ∧ (Config.getField raw "executablePath" = none →
        Config.getField raw "browserURL" = none →
        (Config.buildConfig freshId raw jobVals).browserURL
          = some "http://localhost:9222") := by
  unfold Config.buildConfig
  dsimp only
  cases hexec : Config.getField raw "executablePath" with
  | some v =>
    dsimp only
    constructor
    · split <;> simp [attachOptionals_browserURL]
    · intro hno _
      exact absurd hno (by simp)
  | none =>
    dsimp only
    constructor
    · simp [attachOptionals_executablePath]
    · intro _ hb
      rw [hb]

theorem validateConfig_ok_eq (freshId : ℕ → String) (raw : Config.JVal)
    (cfg : AppConfig) (h : Config.validateConfig freshId raw = .ok cfg) :
    cfg = Config.buildConfig freshId raw (Config.rawJobs raw) := by
  unfold Config.validateConfig at h
  dsimp only at h
  iterate 8
    split at h
    · simp at h
  split at h
  · simp at h
  · injection h with h1
    exact h1.symm

/-- C9.  Every `AppConfig` that `validateConfig` accepts has exactly one of
`browserURL` and `executablePath` set (so connect-vs-launch selection is
total and unambiguous); when neither field was supplied, `browserURL`
defaults to `http://localhost:9222`; and a raw configuration supplying
both fields is rejected with a `ConfigError`. -/
theorem spec_C9 (freshId : ℕ → String) (raw : Config.JVal) :
    (∀ cfg, Config.validateConfig freshId raw = .ok cfg →
        (cfg.browserURL.isSome ↔ cfg.executablePath = none)
        ∧ (Config.getField raw "executablePath" = none →
            Config.getField raw "browserURL" = none →
            cfg.browserURL = some "http://localhost:9222"))
    ∧ ((Config.getField raw "browserURL").isSome →
        (Config.getField raw "executablePath").isSome →
        ∃ e, Config.validateConfig freshId raw = .error e) := by
  constructor
  · intro cfg h
    rw [validateConfig_ok_eq freshId raw cfg h]
    exact buildConfig_modes freshId raw (Config.rawJobs raw)
  · intro hb he
    cases raw with
    | jobj fs =>
      refine ⟨"Config must not specify both browserURL and executablePath", ?_⟩
      unfold Config.validateConfig
      simp [hb, he]
    | jnull => exact absurd hb (by simp [Config.getField])
    | jbool b => exact absurd hb (by simp [Config.getField])
    | jnum q => exact absurd hb (by simp [Config.getField])
    | jstr s => exact absurd hb (by simp [Config.getField])
    | jarr xs => exact absurd hb (by simp [Config.getField])

/-- Witness for C9: the raw connect-mode configuration validates with the
default `browserURL` and no `executablePath`; the dual-mode raw
configuration is rejected. -/
theorem spec_C9_witness :
    (∃ cfg, Config.validateConfig Fixtures.freshId0 Fixtures.rawConnect = .ok cfg
       ∧ (cfg.browserURL.isSome ↔ cfg.executablePath = none)
       ∧ cfg.browserURL = some "http://localhost:9222")
    ∧ ((Config.getField Fixtures.rawBoth "browserURL").isSome
       ∧ (Config.getField Fixtures.rawBoth "executablePath").isSome
       ∧ ∃ e, Config.validateConfig Fixtures.freshId0 Fixtures.rawBoth = .error e) := by
  constructor
  · obtain ⟨hok, hdef⟩ := (spec_C9 Fixtures.freshId0 Fixtures.rawConnect).1
      (Config.buildConfig Fixtures.freshId0 Fixtures.rawConnect
        (Config.rawJobs Fixtures.rawConnect)) rfl
    exact ⟨_, rfl, hok, hdef rfl rfl⟩
  · exact ⟨by decide, by decide,
      (spec_C9 Fixtures.freshId0 Fixtures.rawBoth).2 (by decide) (by decide)⟩

end Croncast
